import Mathlib

/-
Shallow embedding of the WorkTrack payroll and DTR route handlers.

Source of truth: src/server/routes.ts (the current module, lines 1-1126),
together with the shared zod schemas (src/unnamed/part_000), the mongoose
models (src/server/models) and the wired storage backend MongoDBStorage
(src/server/storage.ts line 641 instantiates it; implementation in
src/unnamed/part_005).  Records are kept in lists keyed by a unique
numeric id standing for the document id: getX(id) returns the first
record whose id matches; updateX(id, data) is findByIdAndUpdate, which
merges the given fields into the stored document and runs no validators
(mongoose update validators are off by default, which is how DTR statuses
outside the dtrSchema enum, such as Processed and Paid, get stored); and
createPayroll is new Payroll(data).save(), which validates the document
against the payrollSchema of src/server/models/Payroll.ts, throws when a
required field is absent, and in strict mode drops every field the schema
does not declare (see createPayroll below).  Money amounts and hours are
embedded as rationals; JavaScript date values for yyyy-MM-dd strings are
embedded as civil dates compared through their epoch day number.
-/

namespace WorkTrack

/-- A civil calendar date, as parsed from a yyyy-MM-dd string. -/
structure SDate where
  y : Nat
  m : Nat
  d : Nat
deriving DecidableEq, Repr

/-- A clock time, as parsed from an HH:MM string. -/
structure HM where
  hh : Nat
  mm : Nat
deriving DecidableEq, Repr

/-- Gregorian leap-year rule, as used by the JavaScript Date object. -/
def isLeapYear (y : Nat) : Bool :=
  y % 4 == 0 && (y % 100 != 0 || y % 400 == 0)

/-- Number of days in month m of year y.  This is the value the generate
handler computes as new Date(year, month + 1, 0).getDate() at
src/server/routes.ts line 901. -/
def daysInMonth (y m : Nat) : Nat :=
  if m = 2 then (if isLeapYear y then 29 else 28)
  else if m = 4 || m = 6 || m = 9 || m = 11 then 30
  else 31

/-- Day number of a civil date (days since 1970-01-01, standard civil
calendar algorithm).  Date-only strings parse to UTC midnight, so the
comparisons and millisecond differences the handlers perform on Date
objects are exactly comparisons and differences of this day number. -/
def epochDay (dt : SDate) : Int :=
  let y : Int := if dt.m ≤ 2 then (dt.y : Int) - 1 else (dt.y : Int)
  let era : Int := Int.fdiv y 400
  let yoe : Int := y - era * 400
  let mp : Int := ((dt.m : Int) + 9) % 12
  let doy : Int := (153 * mp + 2) / 5 + (dt.d : Int) - 1
  let doe : Int := yoe * 365 + yoe / 4 - yoe / 100 + doy
  era * 146097 + doe - 719468

/-- Date comparison new Date(a) is less than or equal to new Date(b). -/
def dateLE (a b : SDate) : Bool :=
  decide (epochDay a ≤ epochDay b)

/-- The fields of an employee record that the payroll and DTR handlers
read (employeeSchema in src/unnamed/part_000; name and contact fields are
only interpolated into log strings and are omitted). -/
structure Employee where
  id : Nat
  employeeType : String
  status : String
  salary : Rat
deriving DecidableEq, Repr

/-- A daily time record, after dtrSchema in src/unnamed/part_000.  The
field dtype embeds the schema field named type. -/
structure DTRRec where
  id : Nat
  employeeId : Nat
  date : SDate
  timeIn : HM
  timeOut : HM
  breakHours : Option Rat
  regularHours : Rat
  overtimeHours : Option Rat
  remarks : Option String
  dtype : String
  status : String
  submissionDate : Option SDate
  approvedBy : Option Nat
  approvalDate : Option SDate
deriving DecidableEq, Repr

/-- One entry of the deductions array written by the generate handler. -/
structure Deduction where
  dtype : String
  amount : Rat
  description : String
deriving DecidableEq, Repr

/-- A payroll record.  The different creation paths write different field
sets (the per-DTR paths write payPeriodStart, payPeriodEnd, grossPay and
totalDeductions; the generate path writes periodStart, periodEnd, basicPay
and a deductions array), so each such field is optional and a path leaves
the fields it does not write absent, exactly as the JavaScript objects
built at src/server/routes.ts lines 592, 831 and 915 do. -/
structure PayrollRec where
  id : Nat
  employeeId : Nat
  dtrId : Option Nat
  payPeriodStart : Option SDate
  payPeriodEnd : Option SDate
  periodStart : Option SDate
  periodEnd : Option SDate
  basicPay : Option Rat
  overtimePay : Option Rat
  deductions : List Deduction
  totalRegularHours : Option Rat
  totalOvertimeHours : Option Rat
  grossPay : Option Rat
  totalDeductions : Option Rat
  netPay : Rat
  status : String
  processedBy : Option Nat
  processedDate : Option SDate
  paymentDate : Option SDate
deriving DecidableEq, Repr

/-- An activity log entry (the interpolated description text is
presentational and omitted; the acting user and action kind are kept). -/
structure ActivityRec where
  userId : Nat
  action : String
deriving DecidableEq, Repr

/-- The data store, with the semantics of the wired MongoDBStorage
backend: per-entity collections plus fresh document-id counters. -/
structure DB where
  employees : List Employee
  dtrs : List DTRRec
  payrolls : List PayrollRec
  activities : List ActivityRec
  nextDtrId : Nat
  nextPayrollId : Nat
deriving DecidableEq, Repr

/-- storage.getEmployee. -/
def getEmployee (db : DB) (i : Nat) : Option Employee :=
  db.employees.find? (fun emp => emp.id == i)

/-- storage.getDTR. -/
def getDTR (db : DB) (i : Nat) : Option DTRRec :=
  db.dtrs.find? (fun dtr => dtr.id == i)

/-- storage.getPayroll. -/
def getPayroll (db : DB) (i : Nat) : Option PayrollRec :=
  db.payrolls.find? (fun p => p.id == i)

/-- storage.updateDTR with an already-merged record: findByIdAndUpdate
replaces the fields of every stored DTR whose id matches.  Update
validators are off by default, so statuses outside the dtrSchema enum
(Processed, Paid) are written without complaint. -/
def putDTR (db : DB) (i : Nat) (r : DTRRec) : DB :=
  { db with dtrs := db.dtrs.map (fun dtr => if dtr.id == i then r else dtr) }

/-- storage.updatePayroll with an already-merged record
(findByIdAndUpdate, no validators run). -/
def putPayroll (db : DB) (i : Nat) (r : PayrollRec) : DB :=
  { db with payrolls := db.payrolls.map (fun p => if p.id == i then r else p) }

/-- The validation that new Payroll(data).save() performs against the
mongoose payrollSchema (src/server/models/Payroll.ts lines 3-17):
periodStart, periodEnd and basicPay are required, and status must be one
of the enum values Pending, Processed, Paid.  The other required paths,
employeeId and netPay, are non-optional fields of the embedding and hence
always present. -/
def payrollSchemaValid (p : PayrollRec) : Bool :=
  p.periodStart.isSome && p.periodEnd.isSome && p.basicPay.isSome &&
    (p.status == "Pending" || p.status == "Processed" || p.status == "Paid")

/-- The document save() stores for a valid payroll: strict mode keeps
only the payrollSchema fields (employeeId, periodStart, periodEnd,
basicPay, overtimePay with default 0, deductions, netPay, status,
paymentDate) and silently drops payPeriodStart, payPeriodEnd, dtrId,
totalRegularHours, totalOvertimeHours, grossPay, totalDeductions,
processedBy and processedDate, which the schema does not declare. -/
def mongoStoredPayroll (docId : Nat) (p : PayrollRec) : PayrollRec :=
  { id := docId
    employeeId := p.employeeId
    dtrId := none
    payPeriodStart := none
    payPeriodEnd := none
    periodStart := p.periodStart
    periodEnd := p.periodEnd
    basicPay := p.basicPay
    overtimePay := some (p.overtimePay.getD 0)
    deductions := p.deductions
    totalRegularHours := none
    totalOvertimeHours := none
    grossPay := none
    totalDeductions := none
    netPay := p.netPay
    status := p.status
    processedBy := none
    processedDate := none
    paymentDate := p.paymentDate }

/-- storage.createPayroll of the wired MongoDBStorage (src/unnamed/part_005
lines 140-144): new Payroll(payroll) then save.  When schema validation
fails, save throws and nothing is stored (none); when it succeeds, the
stored document keeps only the schema fields and is returned. -/
def createPayroll (db : DB) (p : PayrollRec) : Option (DB × PayrollRec) :=
  if payrollSchemaValid p then
    let stored := mongoStoredPayroll db.nextPayrollId p
    some ({ db with payrolls := db.payrolls ++ [stored],
                    nextPayrollId := db.nextPayrollId + 1 }, stored)
  else none

/-- storage.createDTR: new DTR(dtr).save().  Every record the POST
/api/dtrs handler builds satisfies the dtrSchema of
src/server/models/DTR.ts (the zod-validated body supplies the required
fields with an enum-valid status, and the handler adds submissionDate and
regularHours), so this save always succeeds and is embedded as an
append. -/
def createDTR (db : DB) (d : DTRRec) : DB × DTRRec :=
  let stored := { d with id := db.nextDtrId }
  ({ db with dtrs := db.dtrs ++ [stored], nextDtrId := db.nextDtrId + 1 },
   stored)

/-- The logActivity helper of src/server/routes.ts lines 53-61: appends an
activity entry, skipping the write when no acting user id is available. -/
def logActivity (db : DB) (actor : Option Nat) (action : String) : DB :=
  match actor with
  | none => db
  | some u => { db with activities := db.activities ++ [⟨u, action⟩] }

/-- Minutes since midnight of a clock time. -/
def minutesOfDay (t : HM) : Nat :=
  t.hh * 60 + t.mm

/-- Modelled from the spec: calculateRegularHours is imported by
src/server/routes.ts from client/src/lib/utils/dateUtils, a file that is
not present under src.  Spec section 4.1 gives its contract: input timeIn
and timeOut as HH:MM values and breakHours with default 1; output
regularHours = (timeOut - timeIn, in hours) - breakHours, floored at 0. -/
def calculateRegularHours (timeIn timeOut : HM) (breakHours : Option Rat) : Rat :=
  max 0 (((minutesOfDay timeOut : Rat) - (minutesOfDay timeIn : Rat)) / 60
            - breakHours.getD 1)

/-- The request body of POST /api/dtrs after insertDtrSchema validation.
The validateRequest middleware (src/server/routes.ts lines 38-50) parses
the body but discards the parse result, so zod defaults are not applied
and optional numeric fields reach the handler as given.  A regularHours
value may be present in the raw body (the schema omits the field and zod
does not strip unknown keys), which the handler overrides. -/
structure CreateDtrBody where
  employeeId : Nat
  date : SDate
  timeIn : HM
  timeOut : HM
  breakHours : Option Rat
  overtimeHours : Option Rat
  remarks : Option String
  dtype : String
  status : String
  submissionDate : Option SDate
  regularHours : Option Rat
deriving DecidableEq, Repr

/-- POST /api/dtrs (src/server/routes.ts lines 321-349): computes
regularHours from timeIn, timeOut and breakHours, spreads the body and
overrides regularHours and submissionDate, then stores the DTR. -/
def createDtrRoute (db : DB) (body : CreateDtrBody) (today : SDate)
    (actor : Option Nat) : DB × DTRRec :=
  let regularHours := calculateRegularHours body.timeIn body.timeOut body.breakHours
  let dtrData : DTRRec :=
    { id := 0
      employeeId := body.employeeId
      date := body.date
      timeIn := body.timeIn
      timeOut := body.timeOut
      breakHours := body.breakHours
      regularHours := regularHours
      overtimeHours := body.overtimeHours
      remarks := body.remarks
      dtype := body.dtype
      status := body.status
      submissionDate := some today
      approvedBy := none
      approvalDate := none }
  let (db1, dtr) := createDTR db dtrData
  (logActivity db1 actor "dtr_submitted", dtr)

/-- PATCH /api/dtrs/:id/approve (src/server/routes.ts lines 369-391):
404 when the DTR is missing, otherwise sets status Approved and stamps
approvalDate.  The handler performs no check of the current status. -/
def approveDtrRoute (db : DB) (dtrId : Nat) (today : SDate)
    (actor : Option Nat) : DB × Option DTRRec :=
  match getDTR db dtrId with
  | none => (db, none)
  | some dtr =>
    let updated := { dtr with status := "Approved", approvalDate := some today }
    let db1 := putDTR db dtrId updated
    (logActivity db1 actor "dtr_approved", some updated)

/-- One entry of the errors array of a bulk response. -/
structure BulkError where
  id : Nat
  message : String
deriving DecidableEq, Repr

/-- The response body of a bulk endpoint. -/
structure BulkResponse (α : Type) where
  success : Bool
  processed : Nat
  total : Nat
  results : List α
  errors : List BulkError
deriving Repr

/-- Loop state of a bulk DTR endpoint: the evolving store plus the
results and errors accumulated so far. -/
structure BulkDtrState where
  db : DB
  results : List DTRRec
  errors : List BulkError
deriving Repr

/-- One iteration of the POST /api/dtrs/bulk/approve loop
(src/server/routes.ts lines 455-483). -/
def bulkApproveStep (today : SDate) (actor : Option Nat)
    (st : BulkDtrState) (dtrId : Nat) : BulkDtrState :=
  match getDTR st.db dtrId with
  | none => { st with errors := st.errors ++ [⟨dtrId, "DTR not found"⟩] }
  | some dtr =>
    if dtr.status ≠ "Pending" then
      { st with errors :=
          st.errors ++ [⟨dtrId, "DTR must be in Pending status to approve"⟩] }
    else
      let updated := { dtr with status := "Approved", approvalDate := some today }
      { db := logActivity (putDTR st.db dtrId updated) actor "dtr_approved"
        results := st.results ++ [updated]
        errors := st.errors }

/-- POST /api/dtrs/bulk/approve (src/server/routes.ts lines 444-496):
400 when dtrIds is empty, otherwise one loop iteration per id. -/
def bulkApproveRoute (db : DB) (dtrIds : List Nat) (today : SDate)
    (actor : Option Nat) : DB × Option (BulkResponse DTRRec) :=
  if dtrIds.isEmpty then (db, none)
  else
    let final := dtrIds.foldl (bulkApproveStep today actor) ⟨db, [], []⟩
    (logActivity final.db actor "bulk_dtr_approved",
     some ⟨true, final.results.length, dtrIds.length, final.results, final.errors⟩)

/-- One iteration of the POST /api/dtrs/bulk/reject loop
(src/server/routes.ts lines 509-537). -/
def bulkRejectStep (today : SDate) (actor : Option Nat)
    (st : BulkDtrState) (dtrId : Nat) : BulkDtrState :=
  match getDTR st.db dtrId with
  | none => { st with errors := st.errors ++ [⟨dtrId, "DTR not found"⟩] }
  | some dtr =>
    if dtr.status ≠ "Pending" then
      { st with errors :=
          st.errors ++ [⟨dtrId, "DTR must be in Pending status to reject"⟩] }
    else
      let updated := { dtr with status := "Rejected", approvalDate := some today }
      { db := logActivity (putDTR st.db dtrId updated) actor "dtr_rejected"
        results := st.results ++ [updated]
        errors := st.errors }

/-- POST /api/dtrs/bulk/reject (src/server/routes.ts lines 498-550). -/
def bulkRejectRoute (db : DB) (dtrIds : List Nat) (today : SDate)
    (actor : Option Nat) : DB × Option (BulkResponse DTRRec) :=
  if dtrIds.isEmpty then (db, none)
  else
    let final := dtrIds.foldl (bulkRejectStep today actor) ⟨db, [], []⟩
    (logActivity final.db actor "bulk_dtr_rejected",
     some ⟨true, final.results.length, dtrIds.length, final.results, final.errors⟩)

/-- Loop state of the bulk payroll-processing endpoint. -/
structure BulkPayState where
  db : DB
  results : List PayrollRec
  errors : List BulkError
deriving Repr

/-- The payroll object the bulk payroll-processing loop builds for an
Approved DTR (src/server/routes.ts lines 581-605): gross = regularHours *
salary + overtimeHours * salary * 1.5 with overtimeHours defaulted to 0,
a flat 15 percent tax deduction, status Processed, the source DTR id, and
the DTR date as both pay-period bounds.  It carries none of periodStart,
periodEnd and basicPay, the fields the payrollSchema requires. -/
def bulkPayrollData (dtr : DTRRec) (employee : Employee) (today : SDate) :
    PayrollRec :=
  let salary := employee.salary
  let regularHours := dtr.regularHours
  let overtimeHours := dtr.overtimeHours.getD 0
  let regularPay := regularHours * salary
  let overtimePay := overtimeHours * salary * (3 / 2)
  let grossPay := regularPay + overtimePay
  let taxRate : Rat := 15 / 100
  let taxDeduction := grossPay * taxRate
  let otherDeductions : Rat := 0
  let totalDeductions := taxDeduction + otherDeductions
  let netPay := grossPay - totalDeductions
  { id := 0
    employeeId := dtr.employeeId
    dtrId := some dtr.id
    payPeriodStart := some dtr.date
    payPeriodEnd := some dtr.date
    periodStart := none
    periodEnd := none
    basicPay := none
    overtimePay := none
    deductions := []
    totalRegularHours := some regularHours
    totalOvertimeHours := some overtimeHours
    grossPay := some grossPay
    totalDeductions := some totalDeductions
    netPay := netPay
    status := "Processed"
    processedBy := some 1
    processedDate := some today
    paymentDate := none }

/-- One iteration of the POST /api/dtrs/bulk/process-payroll loop
(src/server/routes.ts lines 561-613): only Approved DTRs reach
storage.createPayroll.  The whole iteration body sits in a per-item try
block, so when createPayroll throws the iteration lands in the catch at
lines 610-612 and records the error entry with message Failed to process;
that is what always happens here, because bulkPayrollData never carries
the schema-required fields (see createPayroll_bulkData). -/
def bulkProcessPayrollStep (today : SDate) (actor : Option Nat)
    (st : BulkPayState) (dtrId : Nat) : BulkPayState :=
  match getDTR st.db dtrId with
  | none => { st with errors := st.errors ++ [⟨dtrId, "DTR not found"⟩] }
  | some dtr =>
    if dtr.status ≠ "Approved" then
      { st with errors :=
          st.errors ++ [⟨dtrId, "DTR must be in Approved status to process payroll"⟩] }
    else
      match getEmployee st.db dtr.employeeId with
      | none => { st with errors := st.errors ++ [⟨dtrId, "Employee not found"⟩] }
      | some employee =>
        match createPayroll st.db (bulkPayrollData dtr employee today) with
        | some (db1, payroll) =>
          { db := logActivity db1 actor "payroll_processed"
            results := st.results ++ [payroll]
            errors := st.errors }
        | none =>
          { st with errors := st.errors ++ [⟨dtrId, "Failed to process"⟩] }

/-- The bulk per-DTR payroll object always fails payrollSchema
validation: its periodStart is absent. -/
theorem createPayroll_bulkData (db : DB) (dtr : DTRRec) (employee : Employee)
    (today : SDate) :
    createPayroll db (bulkPayrollData dtr employee today) = none := rfl

/-- POST /api/dtrs/bulk/process-payroll (src/server/routes.ts lines
553-625). -/
def bulkProcessPayrollRoute (db : DB) (dtrIds : List Nat) (today : SDate)
    (actor : Option Nat) : DB × Option (BulkResponse PayrollRec) :=
  if dtrIds.isEmpty then (db, none)
  else
    let final := dtrIds.foldl (bulkProcessPayrollStep today actor) ⟨db, [], []⟩
    (logActivity final.db actor "bulk_payroll_processed",
     some ⟨true, final.results.length, dtrIds.length, final.results, final.errors⟩)

/-- The payroll object POST /api/payroll/process/:dtrId builds
(src/server/routes.ts lines 821-843): same gross formula as the bulk
path, a flat 10 percent deduction, status Pending.  Like the bulk object
it lacks the schema-required periodStart, periodEnd and basicPay. -/
def processDtrPayrollData (dtr : DTRRec) (employee : Employee)
    (today : SDate) : PayrollRec :=
  let salary := employee.salary
  let regularHours := dtr.regularHours
  let overtimeHours := dtr.overtimeHours.getD 0
  let regularPay := regularHours * salary
  let overtimePay := overtimeHours * salary * (3 / 2)
  let grossPay := regularPay + overtimePay
  let totalDeductions := grossPay * (1 / 10)
  let netPay := grossPay - totalDeductions
  { id := 0
    employeeId := dtr.employeeId
    dtrId := none
    payPeriodStart := some dtr.date
    payPeriodEnd := some dtr.date
    periodStart := none
    periodEnd := none
    basicPay := none
    overtimePay := none
    deductions := []
    totalRegularHours := some regularHours
    totalOvertimeHours := some overtimeHours
    grossPay := some grossPay
    totalDeductions := some totalDeductions
    netPay := netPay
    status := "Pending"
    processedBy := some 1
    processedDate := some today
    paymentDate := none }

/-- POST /api/payroll/process/:dtrId (src/server/routes.ts lines 797-853):
marks the DTR Processing (without checking its current status), then
hands the payroll object to storage.createPayroll.  The handler has only
the outer catch, so the createPayroll throw turns into a 500 response
(none) with the Processing status already written to the DTR. -/
def processDtrPayrollRoute (db : DB) (dtrId : Nat) (today : SDate)
    (actor : Option Nat) : DB × Option PayrollRec :=
  match getDTR db dtrId with
  | none => (db, none)
  | some dtr =>
    let db1 := putDTR db dtrId { dtr with status := "Processing" }
    match getEmployee db1 dtr.employeeId with
    | none => (db1, none)
    | some employee =>
      match createPayroll db1 (processDtrPayrollData dtr employee today) with
      | some (db2, payroll) =>
        (logActivity db2 actor "payroll_processed", some payroll)
      | none => (db1, none)

/-- The single-path per-DTR payroll object always fails payrollSchema
validation: its periodStart is absent. -/
theorem createPayroll_processData (db : DB) (dtr : DTRRec)
    (employee : Employee) (today : SDate) :
    createPayroll db (processDtrPayrollData dtr employee today) = none := rfl

/-- The DTR filter of the generate handler (src/server/routes.ts lines
869-874): same employee, status Approved, date within the requested
period. -/
def approvedInPeriod (emp : Employee) (s e : SDate) (d : DTRRec) : Bool :=
  d.employeeId == emp.id && d.status == "Approved" &&
    dateLE s d.date && dateLE d.date e

/-- The duplicate test of the generate handler (src/server/routes.ts
lines 878-882): it compares the stored payPeriodStart and payPeriodEnd
fields with the requested period; a payroll without those fields never
matches, because in JavaScript undefined compared to a string with strict
equality is false. -/
def payrollMatches (emp : Employee) (s e : SDate) (p : PayrollRec) : Bool :=
  p.employeeId == emp.id && p.payPeriodStart == some s && p.payPeriodEnd == some e

/-- Inclusive day count of a period, as computed at src/server/routes.ts
line 900 from the millisecond difference of the two period bounds. -/
def daysInPeriodQ (s e : SDate) : Rat :=
  ((epochDay e - epochDay s : Int) : Rat) + 1

/-- The payroll object built by the generate handler for one employee
(src/server/routes.ts lines 886-931), before the store assigns an id.
For a Regular employee the pay is the salary pro-rated over calendar
days, with overtime at 1.25 times the derived hourly rate; otherwise the
salary is treated as an hourly rate.  A flat 10 percent tax is the only
deduction.  Note the period is stored under periodStart and periodEnd,
not under payPeriodStart and payPeriodEnd. -/
def generatePayrollData (dtrs : List DTRRec) (employee : Employee)
    (s e : SDate) : PayrollRec :=
  let employeeDtrs := dtrs.filter (approvedInPeriod employee s e)
  let totalRegularHours := (employeeDtrs.map (fun d => d.regularHours)).sum
  let totalOvertimeHours := (employeeDtrs.map (fun d => d.overtimeHours.getD 0)).sum
  let pay : Rat × Rat :=
    if employee.employeeType == "Regular" then
      let dip := daysInPeriodQ s e
      let dim : Rat := (daysInMonth s.y s.m : Rat)
      (employee.salary * (dip / dim),
       totalOvertimeHours * (employee.salary / dim / 8) * (125 / 100))
    else
      (totalRegularHours * employee.salary,
       totalOvertimeHours * employee.salary * (125 / 100))
  let regularPay := pay.1
  let overtimePay := pay.2
  let grossPay := regularPay + overtimePay
  let taxDeduction := grossPay * (1 / 10)
  let sssDeduction : Rat := 0
  let philhealthDeduction : Rat := 0
  let totalDeductions := taxDeduction + sssDeduction + philhealthDeduction
  let netPay := grossPay - totalDeductions
  { id := 0
    employeeId := employee.id
    dtrId := none
    payPeriodStart := none
    payPeriodEnd := none
    periodStart := some s
    periodEnd := some e
    basicPay := some regularPay
    overtimePay := some overtimePay
    deductions := [⟨"Tax", taxDeduction, "Withholding tax"⟩]
    totalRegularHours := some totalRegularHours
    totalOvertimeHours := some totalOvertimeHours
    grossPay := some grossPay
    totalDeductions := some totalDeductions
    netPay := netPay
    status := "Pending"
    processedBy := none
    processedDate := none
    paymentDate := none }

/-- Loop state of the generate handler: the evolving store plus the
payrolls created so far. -/
structure GenState where
  db : DB
  payrolls : List PayrollRec
deriving Repr

/-- One iteration of the POST /api/payrolls/generate loop over the active
employees (src/server/routes.ts lines 865-938): skip when the employee
has no Approved DTR in the period or when the duplicate test fires,
otherwise create the payroll.  The handler does not modify any DTR.  The
none branch of the createPayroll match is unreachable: the generate
payroll object carries every schema-required field (see
createPayroll_generateData below); a failure there would abort the whole
request with a 500, which this branch approximates by stopping the
iteration's effects. -/
def generateStep (s e : SDate) (actor : Option Nat) (st : GenState)
    (employee : Employee) : GenState :=
  let employeeDtrs := st.db.dtrs.filter (approvedInPeriod employee s e)
  if employeeDtrs.isEmpty then st
  else if st.db.payrolls.any (payrollMatches employee s e) then st
  else
    match createPayroll st.db (generatePayrollData st.db.dtrs employee s e) with
    | some (db1, payroll) =>
      { db := logActivity db1 actor "payroll_generated"
        payrolls := st.payrolls ++ [payroll] }
    | none => st

/-- POST /api/payrolls/generate (src/server/routes.ts lines 855-944). -/
def generatePayrollsRoute (db : DB) (s e : SDate) (actor : Option Nat) :
    GenState :=
  let activeEmployees := db.employees.filter (fun emp => emp.status == "Active")
  activeEmployees.foldl (generateStep s e actor) ⟨db, []⟩

/-- The generate payroll object always passes payrollSchema validation:
it sets periodStart, periodEnd and basicPay and its status Pending is in
the enum, so this save succeeds and stores the stripped document. -/
theorem createPayroll_generateData (db : DB) (dtrs : List DTRRec)
    (emp : Employee) (s e : SDate) :
    createPayroll db (generatePayrollData dtrs emp s e)
      = some ({ db with
            payrolls := db.payrolls
              ++ [mongoStoredPayroll db.nextPayrollId (generatePayrollData dtrs emp s e)],
            nextPayrollId := db.nextPayrollId + 1 },
          mongoStoredPayroll db.nextPayrollId (generatePayrollData dtrs emp s e)) := rfl

/-- The DTR filter of PATCH /api/payrolls/:id/process (src/server/routes.ts
lines 964-969): same employee, status Processing, date within the
payPeriodStart..payPeriodEnd window.  A payroll without those fields
matches nothing, because in JavaScript new Date(undefined) compares as
NaN. -/
def dtrInProcessWindow (p : PayrollRec) (d : DTRRec) : Bool :=
  d.employeeId == p.employeeId && d.status == "Processing" &&
    (match p.payPeriodStart, p.payPeriodEnd with
     | some s, some e => dateLE s d.date && dateLE d.date e
     | _, _ => false)

/-- The update loop shared by the process and mark-paid handlers: for
each record of the filtered list, replace the stored DTR with that id. -/
def foldPutDTR (db : DB) (g : DTRRec → DTRRec) (todo : List DTRRec) : DB :=
  todo.foldl (fun acc dtr => putDTR acc dtr.id (g dtr)) db

/-- PATCH /api/payrolls/:id/process (src/server/routes.ts lines 946-980):
marks the payroll Processed, then sets every Processing DTR of that
employee dated within the payroll pay period to Processed. -/
def processPayrollRoute (db : DB) (payrollId : Nat) (today : SDate) :
    DB × Option PayrollRec :=
  match getPayroll db payrollId with
  | none => (db, none)
  | some payroll =>
    let updatedPayroll :=
      { payroll with status := "Processed", processedBy := some 1,
                     processedDate := some today }
    let db1 := putPayroll db payrollId updatedPayroll
    let dtrsToUpdate := db1.dtrs.filter (dtrInProcessWindow payroll)
    let db2 := foldPutDTR db1 (fun dtr => { dtr with status := "Processed" })
      dtrsToUpdate
    (db2, some updatedPayroll)

/-- The period-start lookup of the mark-paid handler (src/server/routes.ts
line 992): payroll.payPeriodStart with periodStart as fallback. -/
def resolvedStart (p : PayrollRec) : Option SDate :=
  match p.payPeriodStart with
  | some s => some s
  | none => p.periodStart

/-- The period-end lookup of the mark-paid handler (src/server/routes.ts
line 993). -/
def resolvedEnd (p : PayrollRec) : Option SDate :=
  match p.payPeriodEnd with
  | some e => some e
  | none => p.periodEnd

/-- The DTR filter of PATCH /api/payrolls/:id/mark-paid
(src/server/routes.ts lines 1001-1007): same employee, not already Paid,
both resolved period bounds present, date within the period. -/
def dtrInPaidWindow (p : PayrollRec) (d : DTRRec) : Bool :=
  d.employeeId == p.employeeId && d.status != "Paid" &&
    (match resolvedStart p, resolvedEnd p with
     | some s, some e => dateLE s d.date && dateLE d.date e
     | _, _ => false)

/-- PATCH /api/payrolls/:id/mark-paid (src/server/routes.ts lines
982-1023): marks the payroll Paid with a payment date, then sets every
not-yet-Paid DTR of that employee dated within the resolved pay period to
Paid. -/
def markPaidRoute (db : DB) (payrollId : Nat) (today : SDate) :
    DB × Option PayrollRec :=
  match getPayroll db payrollId with
  | none => (db, none)
  | some payroll =>
    let updatedPayroll := { payroll with status := "Paid", paymentDate := some today }
    let db1 := putPayroll db payrollId updatedPayroll
    let dtrsToUpdate := db1.dtrs.filter (dtrInPaidWindow payroll)
    let db2 := foldPutDTR db1 (fun dtr => { dtr with status := "Paid" }) dtrsToUpdate
    (db2, some updatedPayroll)

/-- Store well-formedness: DTR ids are pairwise distinct, as they are in
both storage backends (a Map keyed by id in MemStorage, unique document
ids in MongoDB). -/
def DtrIdsNodup (db : DB) : Prop :=
  (db.dtrs.map (fun d => d.id)).Nodup

/-! Generic list lemmas about id-keyed lookup and update. -/

theorem find?_map_update {α : Type} (p : α → Bool) (r : α) (hr : p r = true) :
    ∀ (l : List α), (l.find? p).isSome = true →
      ((l.map fun x => if p x then r else x).find? p) = some r := by
  intro l
  induction l with
  | nil => intro h; simp [List.find?] at h
  | cons a l ih =>
    intro h
    by_cases ha : p a = true
    · simp [List.find?, ha, hr]
    · rw [List.find?_cons_of_neg l ha] at h
      rw [List.map_cons, if_neg ha, List.find?_cons_of_neg _ ha]
      exact ih h

theorem find?_map_keep {α : Type} (p q : α → Bool) (r : α)
    (h1 : ∀ x, q x = true → p x = false) (h2 : p r = false) :
    ∀ (l : List α),
      ((l.map fun x => if q x then r else x).find? p) = l.find? p := by
  intro l
  induction l with
  | nil => simp
  | cons a l ih =>
    by_cases ha : q a = true
    · have hpa : p a = false := h1 a ha
      simp [List.find?, ha, h2, hpa, ih]
    · simp only [Bool.not_eq_true] at ha
      by_cases hpa : p a = true
      · simp [List.find?, ha, hpa]
      · simp only [Bool.not_eq_true] at hpa
        simp [List.find?, ha, hpa, ih]

theorem find?_id_eq {α : Type} (f : α → Nat) (i : Nat) (l : List α) (x : α)
    (h : l.find? (fun y => f y == i) = some x) : f x = i := by
  have := List.find?_some h
  simpa using this

theorem getDTR_id_eq {db : DB} {i : Nat} {d : DTRRec}
    (h : getDTR db i = some d) : d.id = i := by
  unfold getDTR at h
  have := List.find?_some h
  simpa using this

theorem getPayroll_id_eq {db : DB} {i : Nat} {p : PayrollRec}
    (h : getPayroll db i = some p) : p.id = i := by
  unfold getPayroll at h
  have := List.find?_some h
  simpa using this

/-! Frame lemmas for the store operations. -/

theorem putDTR_employees (db : DB) (i : Nat) (r : DTRRec) :
    (putDTR db i r).employees = db.employees := rfl

theorem putDTR_payrolls (db : DB) (i : Nat) (r : DTRRec) :
    (putDTR db i r).payrolls = db.payrolls := rfl

theorem putPayroll_dtrs (db : DB) (i : Nat) (r : PayrollRec) :
    (putPayroll db i r).dtrs = db.dtrs := rfl

theorem logActivity_dtrs (db : DB) (a : Option Nat) (s : String) :
    (logActivity db a s).dtrs = db.dtrs := by
  cases a <;> rfl

theorem logActivity_employees (db : DB) (a : Option Nat) (s : String) :
    (logActivity db a s).employees = db.employees := by
  cases a <;> rfl

theorem logActivity_payrolls (db : DB) (a : Option Nat) (s : String) :
    (logActivity db a s).payrolls = db.payrolls := by
  cases a <;> rfl

theorem getDTR_of_dtrs_eq {db db' : DB} (h : db'.dtrs = db.dtrs) (i : Nat) :
    getDTR db' i = getDTR db i := by
  simp [getDTR, h]

theorem getEmployee_of_employees_eq {db db' : DB} (h : db'.employees = db.employees)
    (i : Nat) : getEmployee db' i = getEmployee db i := by
  simp [getEmployee, h]

/-! The per-DTR update loop of the process and mark-paid handlers,
reduced to a pointwise map over the store. -/

theorem foldPutDTR_employees (g : DTRRec → DTRRec) :
    ∀ (todo : List DTRRec) (db : DB),
      (foldPutDTR db g todo).employees = db.employees := by
  intro todo
  induction todo with
  | nil => intro db; rfl
  | cons d todo ih =>
    intro db
    simp only [foldPutDTR, List.foldl_cons] at *
    rw [ih]
    rfl

theorem foldPutDTR_payrolls (g : DTRRec → DTRRec) :
    ∀ (todo : List DTRRec) (db : DB),
      (foldPutDTR db g todo).payrolls = db.payrolls := by
  intro todo
  induction todo with
  | nil => intro db; rfl
  | cons d todo ih =>
    intro db
    simp only [foldPutDTR, List.foldl_cons] at *
    rw [ih]
    rfl

theorem foldPutDTR_map (g : DTRRec → DTRRec) (hid : ∀ d, (g d).id = d.id) :
    ∀ (todo : List DTRRec) (db : DB),
      (todo.map (fun d => d.id)).Nodup →
      (∀ d ∈ todo, ∀ x ∈ db.dtrs, x.id = d.id → x = d) →
      (foldPutDTR db g todo).dtrs
        = db.dtrs.map (fun x => if x ∈ todo then g x else x) := by
  intro todo
  induction todo with
  | nil => intro db _ _; simp [foldPutDTR]
  | cons d todo ih =>
    intro db hnd hagree
    simp only [List.map_cons, List.nodup_cons] at hnd
    obtain ⟨hd_notin, hnd'⟩ := hnd
    simp only [foldPutDTR, List.foldl_cons]
    rw [show (List.foldl (fun acc dtr => putDTR acc dtr.id (g dtr))
          (putDTR db d.id (g d)) todo) = foldPutDTR (putDTR db d.id (g d)) g todo from rfl]
    have hagree' : ∀ d' ∈ todo, ∀ x ∈ (putDTR db d.id (g d)).dtrs, x.id = d'.id → x = d' := by
      intro d' hd' x hx hxid
      simp only [putDTR, List.mem_map] at hx
      obtain ⟨x0, hx0, hx0eq⟩ := hx
      by_cases hc : (x0.id == d.id) = true
      · rw [if_pos hc] at hx0eq
        subst hx0eq
        rw [hid d] at hxid
        exfalso
        apply hd_notin
        rw [hxid]
        exact List.mem_map_of_mem (fun y => y.id) hd'
      · rw [if_neg hc] at hx0eq
        subst hx0eq
        exact hagree d' (List.mem_cons_of_mem d hd') x0 hx0 hxid
    rw [ih (putDTR db d.id (g d)) hnd' hagree']
    show (db.dtrs.map (fun y => if y.id == d.id then g d else y)).map
        (fun y => if y ∈ todo then g y else y)
      = db.dtrs.map (fun y => if y ∈ d :: todo then g y else y)
    rw [List.map_map]
    apply List.map_congr_left
    intro y hy
    simp only [Function.comp_apply]
    by_cases hc : (y.id == d.id) = true
    · have hyd : y = d := hagree d (List.mem_cons_self d todo) y hy (by simpa using hc)
      subst hyd
      rw [if_pos hc]
      have hnot : g y ∉ todo := by
        intro hmem
        apply hd_notin
        rw [← hid y]
        exact List.mem_map_of_mem (fun z => z.id) hmem
      rw [if_neg hnot, if_pos (List.mem_cons_self y todo)]
    · rw [if_neg hc]
      have hyne : y ≠ d := by
        intro hye
        apply hc
        rw [hye]
        simp
      by_cases hmem : y ∈ todo
      · rw [if_pos hmem, if_pos (List.mem_cons_of_mem d hmem)]
      · have hnot2 : y ∉ d :: todo := by
          intro hmem2
          rcases List.mem_cons.mp hmem2 with h | h
          · exact hyne h
          · exact hmem h
        rw [if_neg hmem, if_neg hnot2]

theorem foldPutDTR_filter (db : DB) (g : DTRRec → DTRRec) (f : DTRRec → Bool)
    (hid : ∀ d, (g d).id = d.id) (hnd : DtrIdsNodup db) :
    (foldPutDTR db g (db.dtrs.filter f)).dtrs
      = db.dtrs.map (fun x => if f x then g x else x) := by
  have hsub : ((db.dtrs.filter f).map (fun d => d.id)).Nodup :=
    List.Nodup.sublist (List.Sublist.map _ (List.filter_sublist db.dtrs)) hnd
  have hinj := List.inj_on_of_nodup_map hnd
  have hagree : ∀ d ∈ db.dtrs.filter f, ∀ x ∈ db.dtrs, x.id = d.id → x = d := by
    intro d hd x hx hxid
    exact hinj hx (List.mem_of_mem_filter hd) hxid
  rw [foldPutDTR_map g hid (db.dtrs.filter f) db hsub hagree]
  apply List.map_congr_left
  intro x hx
  by_cases hf : f x = true
  · rw [if_pos (List.mem_filter.mpr ⟨hx, hf⟩), if_pos hf]
  · have hnot : x ∉ db.dtrs.filter f := by
      intro hmem
      exact hf (List.mem_filter.mp hmem).2
    rw [if_neg hnot, if_neg hf]

/-! Counting lemmas for the bulk endpoints: every loop iteration adds
exactly one entry, to results or to errors. -/

theorem foldl_meas_add {σ : Type} (step : σ → Nat → σ) (meas : σ → Nat)
    (h : ∀ st i, meas (step st i) = meas st + 1) :
    ∀ (ids : List Nat) (st : σ),
      meas (List.foldl step st ids) = meas st + ids.length := by
  intro ids
  induction ids with
  | nil => intro st; simp
  | cons i ids ih =>
    intro st
    simp only [List.foldl_cons, List.length_cons]
    rw [ih, h]
    omega

theorem bulkApproveStep_count (t : SDate) (a : Option Nat) (st : BulkDtrState) (i : Nat) :
    (bulkApproveStep t a st i).results.length + (bulkApproveStep t a st i).errors.length
      = st.results.length + st.errors.length + 1 := by
  unfold bulkApproveStep
  cases h : getDTR st.db i with
  | none => simp only [List.length_append, List.length_cons, List.length_nil]; omega
  | some dtr =>
    dsimp only
    split_ifs with hs
    · simp only [List.length_append, List.length_cons, List.length_nil]; omega
    · simp only [List.length_append, List.length_cons, List.length_nil]; omega

theorem bulkRejectStep_count (t : SDate) (a : Option Nat) (st : BulkDtrState) (i : Nat) :
    (bulkRejectStep t a st i).results.length + (bulkRejectStep t a st i).errors.length
      = st.results.length + st.errors.length + 1 := by
  unfold bulkRejectStep
  cases h : getDTR st.db i with
  | none => simp only [List.length_append, List.length_cons, List.length_nil]; omega
  | some dtr =>
    dsimp only
    split_ifs with hs
    · simp only [List.length_append, List.length_cons, List.length_nil]; omega
    · simp only [List.length_append, List.length_cons, List.length_nil]; omega

theorem bulkProcessPayrollStep_count (t : SDate) (a : Option Nat) (st : BulkPayState) (i : Nat) :
    (bulkProcessPayrollStep t a st i).results.length
        + (bulkProcessPayrollStep t a st i).errors.length
      = st.results.length + st.errors.length + 1 := by
  unfold bulkProcessPayrollStep
  cases h : getDTR st.db i with
  | none => simp only [List.length_append, List.length_cons, List.length_nil]; omega
  | some dtr =>
    dsimp only
    split_ifs with hs
    · simp only [List.length_append, List.length_cons, List.length_nil]; omega
    · cases h2 : getEmployee st.db dtr.employeeId with
      | none => simp only [List.length_append, List.length_cons, List.length_nil]; omega
      | some employee =>
        dsimp only
        rw [createPayroll_bulkData]
        simp only [List.length_append, List.length_cons, List.length_nil]; omega

/-! Frame and monotonicity lemmas for the bulk payroll-processing loop:
the loop never touches DTRs or employees, and entries already accumulated
persist. -/

theorem bulkProcessPayrollStep_dtrs (t : SDate) (a : Option Nat)
    (st : BulkPayState) (i : Nat) :
    (bulkProcessPayrollStep t a st i).db.dtrs = st.db.dtrs := by
  unfold bulkProcessPayrollStep
  cases h : getDTR st.db i with
  | none => rfl
  | some dtr =>
    dsimp only
    split_ifs with hs
    · rfl
    · cases h2 : getEmployee st.db dtr.employeeId with
      | none => rfl
      | some employee =>
        dsimp only
        rw [createPayroll_bulkData]

theorem bulkProcessPayrollStep_employees (t : SDate) (a : Option Nat)
    (st : BulkPayState) (i : Nat) :
    (bulkProcessPayrollStep t a st i).db.employees = st.db.employees := by
  unfold bulkProcessPayrollStep
  cases h : getDTR st.db i with
  | none => rfl
  | some dtr =>
    dsimp only
    split_ifs with hs
    · rfl
    · cases h2 : getEmployee st.db dtr.employeeId with
      | none => rfl
      | some employee =>
        dsimp only
        rw [createPayroll_bulkData]

theorem bulkPPFold_dtrs (t : SDate) (a : Option Nat) :
    ∀ (ids : List Nat) (st : BulkPayState),
      (List.foldl (bulkProcessPayrollStep t a) st ids).db.dtrs = st.db.dtrs := by
  intro ids
  induction ids with
  | nil => intro st; rfl
  | cons i ids ih =>
    intro st
    simp only [List.foldl_cons]
    rw [ih, bulkProcessPayrollStep_dtrs]

theorem bulkProcessPayrollStep_errors_mono (t : SDate) (a : Option Nat)
    (st : BulkPayState) (i : Nat) (err : BulkError) (h : err ∈ st.errors) :
    err ∈ (bulkProcessPayrollStep t a st i).errors := by
  unfold bulkProcessPayrollStep
  cases h1 : getDTR st.db i with
  | none => exact List.mem_append_left _ h
  | some dtr =>
    dsimp only
    split_ifs with hs
    · exact List.mem_append_left _ h
    · cases h2 : getEmployee st.db dtr.employeeId with
      | none => exact List.mem_append_left _ h
      | some employee =>
        dsimp only
        rw [createPayroll_bulkData]
        exact List.mem_append_left _ h

theorem bulkPPFold_errors_mono (t : SDate) (a : Option Nat) :
    ∀ (ids : List Nat) (st : BulkPayState) (err : BulkError), err ∈ st.errors →
      err ∈ (List.foldl (bulkProcessPayrollStep t a) st ids).errors := by
  intro ids
  induction ids with
  | nil => intro st err h; exact h
  | cons i ids ih =>
    intro st err h
    simp only [List.foldl_cons]
    exact ih _ err (bulkProcessPayrollStep_errors_mono t a st i err h)

/-- No iteration of the bulk payroll-processing loop ever pushes a
result: the only push sits after the createPayroll call, which always
throws for the bulk payroll object. -/
theorem bulkProcessPayrollStep_results (t : SDate) (a : Option Nat)
    (st : BulkPayState) (i : Nat) :
    (bulkProcessPayrollStep t a st i).results = st.results := by
  unfold bulkProcessPayrollStep
  cases h1 : getDTR st.db i with
  | none => rfl
  | some dtr =>
    dsimp only
    split_ifs with hs
    · rfl
    · cases h2 : getEmployee st.db dtr.employeeId with
      | none => rfl
      | some employee =>
        dsimp only
        rw [createPayroll_bulkData]

theorem bulkPPFold_results (t : SDate) (a : Option Nat) :
    ∀ (ids : List Nat) (st : BulkPayState),
      (List.foldl (bulkProcessPayrollStep t a) st ids).results = st.results := by
  intro ids
  induction ids with
  | nil => intro st; rfl
  | cons i ids ih =>
    intro st
    simp only [List.foldl_cons]
    rw [ih, bulkProcessPayrollStep_results]

/-- A wrong-status id makes the payroll-processing iteration record an
error and leave everything else alone. -/
theorem bulkProcessPayrollStep_wrongStatus (t : SDate) (a : Option Nat)
    (st : BulkPayState) (i : Nat) (dtr : DTRRec)
    (hd : getDTR st.db i = some dtr) (hst : dtr.status ≠ "Approved") :
    bulkProcessPayrollStep t a st i
      = { st with errors := st.errors
            ++ [⟨i, "DTR must be in Approved status to process payroll"⟩] } := by
  unfold bulkProcessPayrollStep
  rw [hd]
  dsimp only
  rw [if_pos hst]

/-- Every id of the request list whose DTR has a status other than
Approved at the start contributes an error entry to the bulk
payroll-processing loop. -/
theorem bulkPP_error_of_wrongStatus (t : SDate) (a : Option Nat) (i0 : Nat)
    (dtr : DTRRec) (hst : dtr.status ≠ "Approved") :
    ∀ (ids : List Nat) (st : BulkPayState),
      getDTR st.db i0 = some dtr → i0 ∈ ids →
      ∃ err ∈ (List.foldl (bulkProcessPayrollStep t a) st ids).errors,
        err.id = i0 := by
  intro ids
  induction ids with
  | nil => intro st _ h; simp at h
  | cons i ids ih =>
    intro st hd hmem
    simp only [List.foldl_cons]
    rcases List.mem_cons.mp hmem with heq | hmem2
    · subst heq
      refine ⟨⟨i0, "DTR must be in Approved status to process payroll"⟩, ?_, rfl⟩
      apply bulkPPFold_errors_mono
      rw [bulkProcessPayrollStep_wrongStatus t a st i0 dtr hd hst]
      exact List.mem_append_right _ (List.mem_singleton.mpr rfl)
    · exact ih (bulkProcessPayrollStep t a st i)
        (by rw [getDTR_of_dtrs_eq (bulkProcessPayrollStep_dtrs t a st i)]; exact hd)
        hmem2

/-! Lemmas for the bulk approve loop: a DTR that is not Pending is never
updated, contributes an error entry, and never appears in results. -/

theorem bulkApproveStep_errors_mono (t : SDate) (a : Option Nat)
    (st : BulkDtrState) (i : Nat) (err : BulkError) (h : err ∈ st.errors) :
    err ∈ (bulkApproveStep t a st i).errors := by
  unfold bulkApproveStep
  cases h1 : getDTR st.db i with
  | none => exact List.mem_append_left _ h
  | some dtr =>
    dsimp only
    split_ifs with hs
    · exact List.mem_append_left _ h
    · exact h

theorem bulkApproveFold_errors_mono (t : SDate) (a : Option Nat) :
    ∀ (ids : List Nat) (st : BulkDtrState) (err : BulkError), err ∈ st.errors →
      err ∈ (List.foldl (bulkApproveStep t a) st ids).errors := by
  intro ids
  induction ids with
  | nil => intro st err h; exact h
  | cons i ids ih =>
    intro st err h
    simp only [List.foldl_cons]
    exact ih _ err (bulkApproveStep_errors_mono t a st i err h)

/-- A wrong-status id makes the approve iteration record an error and
leave everything else alone. -/
theorem bulkApproveStep_wrongStatus (t : SDate) (a : Option Nat)
    (st : BulkDtrState) (i : Nat) (dtr : DTRRec)
    (hd : getDTR st.db i = some dtr) (hst : dtr.status ≠ "Pending") :
    bulkApproveStep t a st i
      = { st with errors := st.errors
            ++ [⟨i, "DTR must be in Pending status to approve"⟩] } := by
  unfold bulkApproveStep
  rw [hd]
  dsimp only
  rw [if_pos hst]

/-- An approve iteration for a different id leaves the record stored
under i0 untouched. -/
theorem bulkApproveStep_keep (t : SDate) (a : Option Nat)
    (st : BulkDtrState) (i i0 : Nat) (dtr : DTRRec) (hii : i ≠ i0)
    (hd : getDTR st.db i0 = some dtr) :
    getDTR (bulkApproveStep t a st i).db i0 = some dtr := by
  unfold bulkApproveStep
  cases h1 : getDTR st.db i with
  | none => exact hd
  | some dtr2 =>
    dsimp only
    split_ifs with hs
    · exact hd
    · have hid2 : dtr2.id = i := getDTR_id_eq h1
      rw [getDTR_of_dtrs_eq (logActivity_dtrs _ _ _)]
      unfold getDTR putDTR
      dsimp only
      rw [@find?_map_keep DTRRec (fun d => d.id == i0) (fun d => d.id == i)
        { dtr2 with status := "Approved", approvalDate := some t }
        (by
          intro x hx
          have hxi : x.id = i := by simpa using hx
          simp [hxi, hii])
        (by simp [hid2, hii])
        st.db.dtrs]
      exact hd

/-- Every result produced by one approve iteration is an old result or
carries the id of the iteration. -/
theorem bulkApproveStep_results_sub (t : SDate) (a : Option Nat)
    (st : BulkDtrState) (i : Nat) :
    ∀ d ∈ (bulkApproveStep t a st i).results, d ∈ st.results ∨ d.id = i := by
  intro d hmem
  unfold bulkApproveStep at hmem
  cases h1 : getDTR st.db i with
  | none => rw [h1] at hmem; exact Or.inl hmem
  | some dtr2 =>
    rw [h1] at hmem
    dsimp only at hmem
    by_cases hs : dtr2.status ≠ "Pending"
    · rw [if_pos hs] at hmem; exact Or.inl hmem
    · rw [if_neg hs] at hmem
      rcases List.mem_append.mp hmem with hold | hnew
      · exact Or.inl hold
      · have h5 : dtr2.id = i := getDTR_id_eq h1
        refine Or.inr ?_
        rw [List.mem_singleton.mp hnew]
        exact h5

/-- Invariant of the bulk approve loop for a DTR that is not Pending: it
stays untouched, never reaches results, and once its id is handled an
error entry exists. -/
theorem bulkApprove_nonPending (t : SDate) (a : Option Nat) (i0 : Nat)
    (dtr : DTRRec) (hst : dtr.status ≠ "Pending") :
    ∀ (ids : List Nat) (st : BulkDtrState),
      getDTR st.db i0 = some dtr →
      (∀ d ∈ st.results, d.id ≠ i0) →
      getDTR (List.foldl (bulkApproveStep t a) st ids).db i0 = some dtr
      ∧ (∀ d ∈ (List.foldl (bulkApproveStep t a) st ids).results, d.id ≠ i0)
      ∧ (i0 ∈ ids →
          ∃ err ∈ (List.foldl (bulkApproveStep t a) st ids).errors, err.id = i0) := by
  intro ids
  induction ids with
  | nil =>
    intro st hd hres
    exact ⟨hd, hres, by intro h; simp at h⟩
  | cons i ids ih =>
    intro st hd hres
    simp only [List.foldl_cons]
    by_cases hii : i = i0
    · subst hii
      have hstep := bulkApproveStep_wrongStatus t a st i dtr hd hst
      have hd1 : getDTR (bulkApproveStep t a st i).db i = some dtr := by
        rw [hstep]; exact hd
      have hres1 : ∀ d ∈ (bulkApproveStep t a st i).results, d.id ≠ i := by
        rw [hstep]; exact hres
      obtain ⟨c1, c2, _⟩ := ih (bulkApproveStep t a st i) hd1 hres1
      refine ⟨c1, c2, fun _ => ?_⟩
      refine ⟨⟨i, "DTR must be in Pending status to approve"⟩, ?_, rfl⟩
      apply bulkApproveFold_errors_mono
      rw [hstep]
      exact List.mem_append_right _ (List.mem_singleton.mpr rfl)
    · have hd1 : getDTR (bulkApproveStep t a st i).db i0 = some dtr :=
        bulkApproveStep_keep t a st i i0 dtr hii hd
      have hres1 : ∀ d ∈ (bulkApproveStep t a st i).results, d.id ≠ i0 := by
        intro d hdm
        rcases bulkApproveStep_results_sub t a st i d hdm with hold | hidi
        · exact hres d hold
        · rw [hidi]; exact hii
      obtain ⟨c1, c2, c3⟩ := ih (bulkApproveStep t a st i) hd1 hres1
      refine ⟨c1, c2, fun hmem => ?_⟩
      rcases List.mem_cons.mp hmem with heq | hmem2
      · exact absurd heq.symm hii
      · exact c3 hmem2

/-! Lemmas for the generate loop: it never touches DTRs or employees,
payrolls only accumulate, and a created payroll never carries the
payPeriodStart and payPeriodEnd fields the duplicate test looks at. -/

theorem generatePayrollData_payPeriodStart (dtrs : List DTRRec)
    (employee : Employee) (s e : SDate) :
    (generatePayrollData dtrs employee s e).payPeriodStart = none := rfl

/-- No document that went through the payroll save carries payPeriodStart
(strict mode drops it), so the duplicate test of the generate handler
never matches a stored payroll created by any path. -/
theorem payrollMatches_mongoStored (emp0 : Employee) (s e : SDate) (n : Nat)
    (q : PayrollRec) :
    payrollMatches emp0 s e (mongoStoredPayroll n q) = false := by
  unfold payrollMatches
  have h : (mongoStoredPayroll n q).payPeriodStart = none := rfl
  rw [h]
  simp

theorem generateStep_dtrs (s e : SDate) (a : Option Nat) (st : GenState)
    (emp : Employee) : (generateStep s e a st emp).db.dtrs = st.db.dtrs := by
  unfold generateStep
  dsimp only
  split_ifs with h1 h2
  · rfl
  · rfl
  · rw [createPayroll_generateData]
    dsimp only
    rw [logActivity_dtrs]

theorem generateStep_employees (s e : SDate) (a : Option Nat) (st : GenState)
    (emp : Employee) :
    (generateStep s e a st emp).db.employees = st.db.employees := by
  unfold generateStep
  dsimp only
  split_ifs with h1 h2
  · rfl
  · rfl
  · rw [createPayroll_generateData]
    dsimp only
    rw [logActivity_employees]

theorem generateFold_dtrs (s e : SDate) (a : Option Nat) :
    ∀ (emps : List Employee) (st : GenState),
      (List.foldl (generateStep s e a) st emps).db.dtrs = st.db.dtrs := by
  intro emps
  induction emps with
  | nil => intro st; rfl
  | cons emp emps ih =>
    intro st
    simp only [List.foldl_cons]
    rw [ih, generateStep_dtrs]

theorem generateFold_employees (s e : SDate) (a : Option Nat) :
    ∀ (emps : List Employee) (st : GenState),
      (List.foldl (generateStep s e a) st emps).db.employees = st.db.employees := by
  intro emps
  induction emps with
  | nil => intro st; rfl
  | cons emp emps ih =>
    intro st
    simp only [List.foldl_cons]
    rw [ih, generateStep_employees]

theorem generateStep_payrolls_mono (s e : SDate) (a : Option Nat)
    (st : GenState) (emp : Employee) (p : PayrollRec)
    (h : p ∈ st.db.payrolls) :
    p ∈ (generateStep s e a st emp).db.payrolls := by
  unfold generateStep
  dsimp only
  split_ifs with h1 h2
  · exact h
  · exact h
  · rw [createPayroll_generateData]
    dsimp only
    rw [logActivity_payrolls]
    exact List.mem_append_left _ h

theorem generateFold_payrolls_mono (s e : SDate) (a : Option Nat) :
    ∀ (emps : List Employee) (st : GenState) (p : PayrollRec),
      p ∈ st.db.payrolls →
      p ∈ (List.foldl (generateStep s e a) st emps).db.payrolls := by
  intro emps
  induction emps with
  | nil => intro st p h; exact h
  | cons emp emps ih =>
    intro st p h
    simp only [List.foldl_cons]
    exact ih _ p (generateStep_payrolls_mono s e a st emp p h)

theorem generateStep_preserves_nomatch (s e : SDate) (a : Option Nat)
    (st : GenState) (emp emp0 : Employee)
    (h : st.db.payrolls.any (payrollMatches emp0 s e) = false) :
    (generateStep s e a st emp).db.payrolls.any (payrollMatches emp0 s e)
      = false := by
  unfold generateStep
  dsimp only
  split_ifs with h1 h2
  · exact h
  · exact h
  · rw [createPayroll_generateData]
    dsimp only
    rw [logActivity_payrolls]
    rw [List.any_append]
    simp only [h, List.any_cons, List.any_nil, Bool.false_or, Bool.or_false]
    exact payrollMatches_mongoStored emp0 s e st.db.nextPayrollId _

/-- When the loop reaches an employee with an Approved DTR in the period
and the duplicate test does not fire, the payroll prescribed by
generatePayrollData is created and persists to the end of the loop. -/
theorem generate_fold_mem (s e : SDate) (a : Option Nat) (emp : Employee)
    (dtrs0 : List DTRRec)
    (hne : (dtrs0.filter (approvedInPeriod emp s e)).isEmpty = false) :
    ∀ (emps : List Employee) (st : GenState),
      st.db.dtrs = dtrs0 →
      st.db.payrolls.any (payrollMatches emp s e) = false →
      emp ∈ emps →
      ∃ n, mongoStoredPayroll n (generatePayrollData dtrs0 emp s e)
        ∈ (List.foldl (generateStep s e a) st emps).db.payrolls := by
  intro emps
  induction emps with
  | nil => intro st _ _ h; simp at h
  | cons emp1 emps ih =>
    intro st hdtrs hnom hmem
    simp only [List.foldl_cons]
    rcases List.mem_cons.mp hmem with heq | hmem2
    · subst heq
      refine ⟨st.db.nextPayrollId, ?_⟩
      apply generateFold_payrolls_mono
      unfold generateStep
      dsimp only
      rw [hdtrs]
      rw [if_neg (by rw [hne]; exact Bool.false_ne_true)]
      rw [if_neg (by rw [hnom]; exact Bool.false_ne_true)]
      rw [createPayroll_generateData]
      dsimp only
      rw [logActivity_payrolls]
      exact List.mem_append_right _ (List.mem_singleton.mpr rfl)
    · exact ih (generateStep s e a st emp1)
        (by rw [generateStep_dtrs]; exact hdtrs)
        (generateStep_preserves_nomatch s e a st emp1 emp hnom)
        hmem2

/-! Claim theorems. -/

/-- Claim C10: POST /api/payrolls/generate never modifies any DTR record: after
a generation run the store carries exactly the DTR list it had before, so
every Approved DTR summed into a created payroll keeps its status and all
other fields; employee records are also untouched, the operation only
appends Payroll records and Activity log entries. -/
theorem c10_generate_never_modifies_dtrs (db : DB) (s e : SDate) (a : Option Nat) :
    (generatePayrollsRoute db s e a).db.dtrs = db.dtrs
    ∧ (generatePayrollsRoute db s e a).db.employees = db.employees := by
  unfold generatePayrollsRoute
  exact ⟨generateFold_dtrs s e a _ _, generateFold_employees s e a _ _⟩

/-- Claim C2: for every DTR created via POST /api/dtrs, the stored regularHours
equals max(0, (timeOut - timeIn, in hours) - breakHours) with breakHours
defaulting to 1 when absent; the value is computed from timeIn, timeOut
and breakHours regardless of any regularHours value carried by the
request body, and the created record is stored; timeIn 08:00, timeOut
17:00, breakHours 1 yields 8. -/
theorem c2_regular_hours_derived (db : DB) (body : CreateDtrBody) (t : SDate)
    (a : Option Nat) :
    (createDtrRoute db body t a).2.regularHours
        = max 0 (((minutesOfDay body.timeOut : Rat)
            - (minutesOfDay body.timeIn : Rat)) / 60 - body.breakHours.getD 1)
    ∧ (createDtrRoute db body t a).2 ∈ (createDtrRoute db body t a).1.dtrs
    ∧ calculateRegularHours ⟨8, 0⟩ ⟨17, 0⟩ (some 1) = 8 := by
  refine ⟨rfl, ?_, ?_⟩
  · unfold createDtrRoute
    dsimp only
    rw [logActivity_dtrs]
    exact List.mem_append_right _ (List.mem_singleton.mpr rfl)
  · unfold calculateRegularHours minutesOfDay
    norm_num

/-- Claim C9: PATCH /api/payrolls/:id/process sets exactly those DTRs matching
the payroll employee, in Processing status, and dated within the payroll
pay period (the payPeriodStart..payPeriodEnd window it stores) to
Processed, and leaves every other DTR unchanged: the new DTR list is the
old one with precisely the window DTRs given status Processed. -/
theorem c9_process_updates_exactly_window (db : DB) (pid : Nat)
    (p : PayrollRec) (t : SDate) (hp : getPayroll db pid = some p)
    (hnd : DtrIdsNodup db) :
    (processPayrollRoute db pid t).1.dtrs
      = db.dtrs.map (fun d => if dtrInProcessWindow p d
          then { d with status := "Processed" } else d) := by
  unfold processPayrollRoute
  rw [hp]
  dsimp only
  have hput : (putPayroll db pid { p with status := "Processed", processedBy := some 1, processedDate := some t }).dtrs = db.dtrs := rfl
  rw [foldPutDTR_filter _ (fun dtr => { dtr with status := "Processed" })
    (dtrInProcessWindow p) (fun d => rfl) (by
      show ((putPayroll db pid _).dtrs.map (fun d => d.id)).Nodup
      rw [hput]
      exact hnd)]
  rfl

def dtrC9a : DTRRec :=
  { id := 1, employeeId := 7, date := ⟨2024, 5, 10⟩, timeIn := ⟨8, 0⟩,
    timeOut := ⟨17, 0⟩, breakHours := some 1, regularHours := 8,
    overtimeHours := none, remarks := none, dtype := "Daily",
    status := "Processing", submissionDate := none, approvedBy := none,
    approvalDate := none }

def dtrC9b : DTRRec := { dtrC9a with id := 2, status := "Pending" }

def dtrC9c : DTRRec := { dtrC9a with id := 3, date := ⟨2024, 6, 2⟩ }

def payC9 : PayrollRec :=
  { id := 1, employeeId := 7, dtrId := none,
    payPeriodStart := some ⟨2024, 5, 1⟩, payPeriodEnd := some ⟨2024, 5, 31⟩,
    periodStart := none, periodEnd := none, basicPay := none,
    overtimePay := none, deductions := [], totalRegularHours := none,
    totalOvertimeHours := none, grossPay := none, totalDeductions := none,
    netPay := 0, status := "Pending", processedBy := none,
    processedDate := none, paymentDate := none }

def dbC9 : DB := ⟨[], [dtrC9a, dtrC9b, dtrC9c], [payC9], [], 4, 2⟩

theorem c9_witness :
    ((processPayrollRoute dbC9 1 ⟨2024, 6, 5⟩).1.dtrs
      = dbC9.dtrs.map (fun d => if dtrInProcessWindow payC9 d
          then { d with status := "Processed" } else d))
    ∧ ((processPayrollRoute dbC9 1 ⟨2024, 6, 5⟩).1.dtrs.map (fun d => d.status))
      = ["Processed", "Pending", "Processing"] := by
  refine ⟨c9_process_updates_exactly_window dbC9 1 payC9 ⟨2024, 6, 5⟩ rfl
    (by unfold DtrIdsNodup; decide), ?_⟩
  rfl

theorem getPayroll_of_payrolls_eq {db db' : DB} (h : db'.payrolls = db.payrolls)
    (i : Nat) : getPayroll db' i = getPayroll db i := by
  simp [getPayroll, h]

/-- Claim C6: after PATCH /api/payrolls/:id/mark-paid succeeds on an existing
payroll, the payroll is stored with status Paid (and a payment date), and
every DTR of that employee dated within the resolved pay period bounds
has status Paid. -/
theorem c6_mark_paid_pays_period_dtrs (db : DB) (pid : Nat) (p : PayrollRec)
    (t s e : SDate) (hp : getPayroll db pid = some p) (hnd : DtrIdsNodup db)
    (hs : resolvedStart p = some s) (he : resolvedEnd p = some e) :
    getPayroll (markPaidRoute db pid t).1 pid
        = some { p with status := "Paid", paymentDate := some t }
    ∧ ∀ d ∈ (markPaidRoute db pid t).1.dtrs,
        d.employeeId = p.employeeId → dateLE s d.date = true →
        dateLE d.date e = true → d.status = "Paid" := by
  unfold markPaidRoute
  rw [hp]
  dsimp only
  have hpid : p.id = pid := getPayroll_id_eq hp
  constructor
  · rw [getPayroll_of_payrolls_eq (foldPutDTR_payrolls _ _ _)]
    unfold getPayroll putPayroll
    dsimp only
    rw [@find?_map_update PayrollRec (fun q => q.id == pid)
      { p with status := "Paid", paymentDate := some t }
      (by simp [hpid]) db.payrolls
      (by unfold getPayroll at hp; rw [hp]; rfl)]
  · rw [foldPutDTR_filter _ (fun dtr => { dtr with status := "Paid" })
      (dtrInPaidWindow p) (fun d => rfl) (by
        show ((putPayroll db pid _).dtrs.map (fun d => d.id)).Nodup
        exact hnd)]
    intro d' hd' hemp hles hlee
    obtain ⟨d, hdm, heq⟩ := List.mem_map.mp hd'
    by_cases hw : dtrInPaidWindow p d = true
    · rw [if_pos hw] at heq
      rw [← heq]
    · rw [if_neg hw] at heq
      subst heq
      unfold dtrInPaidWindow at hw
      rw [hs, he] at hw
      simp only [hemp, hles, hlee] at hw
      simpa using hw

def dtrC6a : DTRRec :=
  { id := 1, employeeId := 4, date := ⟨2024, 5, 12⟩, timeIn := ⟨8, 0⟩,
    timeOut := ⟨17, 0⟩, breakHours := some 1, regularHours := 8,
    overtimeHours := none, remarks := none, dtype := "Daily",
    status := "Approved", submissionDate := none, approvedBy := none,
    approvalDate := none }

def dtrC6b : DTRRec := { dtrC6a with id := 2, status := "Paid" }

def dtrC6c : DTRRec := { dtrC6a with id := 3, date := ⟨2024, 6, 2⟩ }

/-- A payroll as created by the generate path: the period sits in
periodStart and periodEnd, so mark-paid reaches it through the fallback
lookup. -/
def payC6 : PayrollRec :=
  { id := 1, employeeId := 4, dtrId := none,
    payPeriodStart := none, payPeriodEnd := none,
    periodStart := some ⟨2024, 5, 1⟩, periodEnd := some ⟨2024, 5, 31⟩,
    basicPay := none, overtimePay := none, deductions := [],
    totalRegularHours := none, totalOvertimeHours := none, grossPay := none,
    totalDeductions := none, netPay := 0, status := "Pending",
    processedBy := none, processedDate := none, paymentDate := none }

def dbC6 : DB := ⟨[], [dtrC6a, dtrC6b, dtrC6c], [payC6], [], 4, 2⟩

theorem c6_witness :
    (getPayroll (markPaidRoute dbC6 1 ⟨2024, 6, 5⟩).1 1
        = some { payC6 with status := "Paid", paymentDate := some ⟨2024, 6, 5⟩ }
      ∧ ∀ d ∈ (markPaidRoute dbC6 1 ⟨2024, 6, 5⟩).1.dtrs,
          d.employeeId = payC6.employeeId →
          dateLE ⟨2024, 5, 1⟩ d.date = true →
          dateLE d.date ⟨2024, 5, 31⟩ = true → d.status = "Paid")
    ∧ ((markPaidRoute dbC6 1 ⟨2024, 6, 5⟩).1.dtrs.map (fun d => d.status))
      = ["Paid", "Paid", "Approved"] := by
  refine ⟨c6_mark_paid_pays_period_dtrs dbC6 1 payC6 ⟨2024, 6, 5⟩ ⟨2024, 5, 1⟩
    ⟨2024, 5, 31⟩ rfl (by unfold DtrIdsNodup; decide) rfl rfl, ?_⟩
  rfl

/-- Claim C8: every bulk endpoint given a non-empty id list answers with
processed = results.length, total = dtrIds.length, and
processed + errors.length = total: each supplied id contributes exactly
one result entry or one error entry, and one failing id never stops the
rest of the batch. -/
theorem c8_bulk_response_totals (db : DB) (ids : List Nat) (t : SDate)
    (a : Option Nat) (hne : ids ≠ []) :
    (∃ resp, (bulkApproveRoute db ids t a).2 = some resp ∧
      resp.processed = resp.results.length ∧ resp.total = ids.length ∧
      resp.results.length + resp.errors.length = ids.length)
    ∧ (∃ resp, (bulkRejectRoute db ids t a).2 = some resp ∧
      resp.processed = resp.results.length ∧ resp.total = ids.length ∧
      resp.results.length + resp.errors.length = ids.length)
    ∧ (∃ resp, (bulkProcessPayrollRoute db ids t a).2 = some resp ∧
      resp.processed = resp.results.length ∧ resp.total = ids.length ∧
      resp.results.length + resp.errors.length = ids.length) := by
  cases ids with
  | nil => exact absurd rfl hne
  | cons i l =>
    have ha : (bulkApproveRoute db (i :: l) t a).2
        = some ⟨true,
            (List.foldl (bulkApproveStep t a) ⟨db, [], []⟩ (i :: l)).results.length,
            (i :: l).length,
            (List.foldl (bulkApproveStep t a) ⟨db, [], []⟩ (i :: l)).results,
            (List.foldl (bulkApproveStep t a) ⟨db, [], []⟩ (i :: l)).errors⟩ := by
      unfold bulkApproveRoute
      rw [if_neg (by simp)]
    have hr : (bulkRejectRoute db (i :: l) t a).2
        = some ⟨true,
            (List.foldl (bulkRejectStep t a) ⟨db, [], []⟩ (i :: l)).results.length,
            (i :: l).length,
            (List.foldl (bulkRejectStep t a) ⟨db, [], []⟩ (i :: l)).results,
            (List.foldl (bulkRejectStep t a) ⟨db, [], []⟩ (i :: l)).errors⟩ := by
      unfold bulkRejectRoute
      rw [if_neg (by simp)]
    have hpp : (bulkProcessPayrollRoute db (i :: l) t a).2
        = some ⟨true,
            (List.foldl (bulkProcessPayrollStep t a) ⟨db, [], []⟩ (i :: l)).results.length,
            (i :: l).length,
            (List.foldl (bulkProcessPayrollStep t a) ⟨db, [], []⟩ (i :: l)).results,
            (List.foldl (bulkProcessPayrollStep t a) ⟨db, [], []⟩ (i :: l)).errors⟩ := by
      unfold bulkProcessPayrollRoute
      rw [if_neg (by simp)]
    refine ⟨⟨_, ha, rfl, rfl, ?_⟩, ⟨_, hr, rfl, rfl, ?_⟩, ⟨_, hpp, rfl, rfl, ?_⟩⟩
    · have h := foldl_meas_add (bulkApproveStep t a)
        (fun st => st.results.length + st.errors.length)
        (bulkApproveStep_count t a) (i :: l) ⟨db, [], []⟩
      simpa using h
    · have h := foldl_meas_add (bulkRejectStep t a)
        (fun st => st.results.length + st.errors.length)
        (bulkRejectStep_count t a) (i :: l) ⟨db, [], []⟩
      simpa using h
    · have h := foldl_meas_add (bulkProcessPayrollStep t a)
        (fun st => st.results.length + st.errors.length)
        (bulkProcessPayrollStep_count t a) (i :: l) ⟨db, [], []⟩
      simpa using h

def dtrC8 : DTRRec :=
  { id := 1, employeeId := 2, date := ⟨2024, 5, 10⟩, timeIn := ⟨8, 0⟩,
    timeOut := ⟨17, 0⟩, breakHours := some 1, regularHours := 8,
    overtimeHours := none, remarks := none, dtype := "Daily",
    status := "Pending", submissionDate := none, approvedBy := none,
    approvalDate := none }

def dbC8 : DB := ⟨[], [dtrC8], [], [], 2, 1⟩

theorem c8_witness :
    ([1, 2] : List Nat) ≠ []
    ∧ ((∃ resp, (bulkApproveRoute dbC8 [1, 2] ⟨2024, 5, 11⟩ none).2 = some resp ∧
        resp.processed = resp.results.length ∧ resp.total = ([1, 2] : List Nat).length ∧
        resp.results.length + resp.errors.length = ([1, 2] : List Nat).length)
      ∧ (∃ resp, (bulkRejectRoute dbC8 [1, 2] ⟨2024, 5, 11⟩ none).2 = some resp ∧
        resp.processed = resp.results.length ∧ resp.total = ([1, 2] : List Nat).length ∧
        resp.results.length + resp.errors.length = ([1, 2] : List Nat).length)
      ∧ (∃ resp, (bulkProcessPayrollRoute dbC8 [1, 2] ⟨2024, 5, 11⟩ none).2 = some resp ∧
        resp.processed = resp.results.length ∧ resp.total = ([1, 2] : List Nat).length ∧
        resp.results.length + resp.errors.length = ([1, 2] : List Nat).length)) :=
  ⟨by decide, c8_bulk_response_totals dbC8 [1, 2] ⟨2024, 5, 11⟩ none (by decide)⟩

/-- Claim C7: an id in a POST /api/dtrs/bulk/process-payroll request whose DTR
exists with a status other than Approved yields an error entry, no
payroll record for that DTR, and leaves every stored DTR (in particular
that one) unchanged. -/
theorem c7_bulk_process_wrong_status_is_error (db : DB) (ids : List Nat)
    (i0 : Nat) (dtr : DTRRec) (t : SDate) (a : Option Nat)
    (hd : getDTR db i0 = some dtr) (hst : dtr.status ≠ "Approved")
    (hm : i0 ∈ ids) :
    (bulkProcessPayrollRoute db ids t a).1.dtrs = db.dtrs
    ∧ ∃ resp, (bulkProcessPayrollRoute db ids t a).2 = some resp ∧
        (∃ err ∈ resp.errors, err.id = i0) ∧
        (∀ p ∈ resp.results, p.dtrId ≠ some i0) := by
  cases ids with
  | nil => simp at hm
  | cons i l =>
    have hroute1 : (bulkProcessPayrollRoute db (i :: l) t a).1
        = logActivity (List.foldl (bulkProcessPayrollStep t a) ⟨db, [], []⟩ (i :: l)).db
            a "bulk_payroll_processed" := by
      unfold bulkProcessPayrollRoute
      rw [if_neg (by simp)]
    have hroute2 : (bulkProcessPayrollRoute db (i :: l) t a).2
        = some ⟨true,
            (List.foldl (bulkProcessPayrollStep t a) ⟨db, [], []⟩ (i :: l)).results.length,
            (i :: l).length,
            (List.foldl (bulkProcessPayrollStep t a) ⟨db, [], []⟩ (i :: l)).results,
            (List.foldl (bulkProcessPayrollStep t a) ⟨db, [], []⟩ (i :: l)).errors⟩ := by
      unfold bulkProcessPayrollRoute
      rw [if_neg (by simp)]
    constructor
    · rw [hroute1, logActivity_dtrs, bulkPPFold_dtrs]
    · refine ⟨_, hroute2, ?_, ?_⟩
      · exact bulkPP_error_of_wrongStatus t a i0 dtr hst (i :: l) ⟨db, [], []⟩ hd hm
      · intro p hp
        rw [bulkPPFold_results] at hp
        simp at hp

def dtrC7 : DTRRec :=
  { id := 1, employeeId := 2, date := ⟨2024, 5, 10⟩, timeIn := ⟨8, 0⟩,
    timeOut := ⟨17, 0⟩, breakHours := some 1, regularHours := 8,
    overtimeHours := none, remarks := none, dtype := "Daily",
    status := "Pending", submissionDate := none, approvedBy := none,
    approvalDate := none }

def dbC7 : DB := ⟨[], [dtrC7], [], [], 2, 1⟩

theorem c7_witness :
    (bulkProcessPayrollRoute dbC7 [1] ⟨2024, 5, 11⟩ none).1.dtrs = dbC7.dtrs
    ∧ ∃ resp, (bulkProcessPayrollRoute dbC7 [1] ⟨2024, 5, 11⟩ none).2 = some resp ∧
        (∃ err ∈ resp.errors, err.id = 1) ∧
        (∀ p ∈ resp.results, p.dtrId ≠ some 1) :=
  c7_bulk_process_wrong_status_is_error dbC7 [1] 1 dtrC7 ⟨2024, 5, 11⟩ none rfl
    (by decide) (by decide)

def empC3 : Employee := ⟨2, "Regular", "Active", 100⟩

def dtrC3 : DTRRec :=
  { id := 1, employeeId := 2, date := ⟨2024, 5, 10⟩, timeIn := ⟨8, 0⟩,
    timeOut := ⟨17, 0⟩, breakHours := some 1, regularHours := 8,
    overtimeHours := some 2, remarks := none, dtype := "Daily",
    status := "Approved", submissionDate := none, approvedBy := none,
    approvalDate := none }

def dbC3 : DB := ⟨[empC3], [dtrC3], [], [], 2, 1⟩

/-- Claim C3 fails on the code: the payroll objects the per-DTR paths
build (src/server/routes.ts lines 592-605 and 831-843) compute the
claimed amounts but carry none of the periodStart, periodEnd and
basicPay fields the payrollSchema of src/server/models/Payroll.ts
requires, so storage.createPayroll throws on every per-DTR creation and
no payroll record is ever created by these paths.  At the failing input
(an Approved DTR with an existing employee) the bulk endpoint answers an
error entry with message Failed to process and empty results, leaving
the payroll collection empty, and the single endpoint answers 500 (none)
with the payroll collection empty and the DTR already flipped to
Processing. -/
theorem c3_per_dtr_creation_always_fails :
    (∃ resp, (bulkProcessPayrollRoute dbC3 [1] ⟨2024, 5, 11⟩ none).2 = some resp ∧
      resp.results = [] ∧ resp.errors = [⟨1, "Failed to process"⟩] ∧
      (bulkProcessPayrollRoute dbC3 [1] ⟨2024, 5, 11⟩ none).1.payrolls = [])
    ∧ (processDtrPayrollRoute dbC3 1 ⟨2024, 5, 11⟩ none).2 = none
    ∧ (processDtrPayrollRoute dbC3 1 ⟨2024, 5, 11⟩ none).1.payrolls = []
    ∧ ((processDtrPayrollRoute dbC3 1 ⟨2024, 5, 11⟩ none).1.dtrs.map
        (fun d => d.status)) = ["Processing"] := by
  refine ⟨⟨⟨true, 0, 1, [], [⟨1, "Failed to process"⟩]⟩, ?_, rfl, rfl, ?_⟩, ?_, ?_, ?_⟩
  · rfl
  · rfl
  · rfl
  · rfl
  · rfl

/-- The failure is not an artifact of the concrete input: no run of the
bulk payroll-processing endpoint ever produces a result entry, on any
store and any id list. -/
theorem bulk_process_payroll_results_always_empty (db : DB) (ids : List Nat)
    (t : SDate) (a : Option Nat) (resp : BulkResponse PayrollRec)
    (h : (bulkProcessPayrollRoute db ids t a).2 = some resp) :
    resp.results = [] := by
  cases ids with
  | nil =>
    unfold bulkProcessPayrollRoute at h
    simp at h
  | cons i l =>
    unfold bulkProcessPayrollRoute at h
    rw [if_neg (by simp)] at h
    injection h with h2
    rw [← h2]
    exact bulkPPFold_results t a (i :: l) ⟨db, [], []⟩

def dtrC5 : DTRRec :=
  { id := 1, employeeId := 2, date := ⟨2024, 5, 10⟩, timeIn := ⟨8, 0⟩,
    timeOut := ⟨17, 0⟩, breakHours := some 1, regularHours := 8,
    overtimeHours := none, remarks := none, dtype := "Daily",
    status := "Rejected", submissionDate := none, approvedBy := none,
    approvalDate := none }

def dbC5 : DB := ⟨[], [dtrC5], [], [], 2, 1⟩

/-- Claim C5 counterexample: the claim says PATCH /api/dtrs/:id/approve leaves
a non-Pending DTR unchanged, but the handler has no status guard: on a
store whose only DTR is Rejected, the endpoint flips it to Approved. -/
theorem c5_counterexample :
    (dbC5.dtrs.map (fun d => d.status)) = ["Rejected"]
    ∧ ((approveDtrRoute dbC5 1 ⟨2024, 5, 11⟩ none).1.dtrs.map (fun d => d.status))
      = ["Approved"] := by
  constructor
  · rfl
  · rfl

/-- Claim C5 amended: only the bulk path guards the Pending-to-Approved
transition.  PATCH /api/dtrs/:id/approve sets any existing DTR to
Approved regardless of its current status, while POST
/api/dtrs/bulk/approve answers a non-Pending DTR with an error entry,
keeps it out of results, and leaves it unchanged. -/
theorem c5_amended_approve_guard (db : DB) (i0 : Nat) (dtr : DTRRec)
    (t : SDate) (a : Option Nat) (ids : List Nat)
    (hd : getDTR db i0 = some dtr) (hst : dtr.status ≠ "Pending")
    (hm : i0 ∈ ids) :
    getDTR (approveDtrRoute db i0 t a).1 i0
        = some { dtr with status := "Approved", approvalDate := some t }
    ∧ ∃ resp, (bulkApproveRoute db ids t a).2 = some resp ∧
        (∃ err ∈ resp.errors, err.id = i0) ∧
        (∀ d ∈ resp.results, d.id ≠ i0) ∧
        getDTR (bulkApproveRoute db ids t a).1 i0 = some dtr := by
  have hid : dtr.id = i0 := getDTR_id_eq hd
  constructor
  · unfold approveDtrRoute
    rw [hd]
    dsimp only
    rw [getDTR_of_dtrs_eq (logActivity_dtrs _ _ _)]
    unfold getDTR putDTR
    dsimp only
    rw [@find?_map_update DTRRec (fun d => d.id == i0)
      { dtr with status := "Approved", approvalDate := some t }
      (by simp [hid]) db.dtrs
      (by unfold getDTR at hd; rw [hd]; rfl)]
  · cases ids with
    | nil => simp at hm
    | cons i l =>
      have hroute1 : (bulkApproveRoute db (i :: l) t a).1
          = logActivity (List.foldl (bulkApproveStep t a) ⟨db, [], []⟩ (i :: l)).db
              a "bulk_dtr_approved" := by
        unfold bulkApproveRoute
        rw [if_neg (by simp)]
      have hroute2 : (bulkApproveRoute db (i :: l) t a).2
          = some ⟨true,
              (List.foldl (bulkApproveStep t a) ⟨db, [], []⟩ (i :: l)).results.length,
              (i :: l).length,
              (List.foldl (bulkApproveStep t a) ⟨db, [], []⟩ (i :: l)).results,
              (List.foldl (bulkApproveStep t a) ⟨db, [], []⟩ (i :: l)).errors⟩ := by
        unfold bulkApproveRoute
        rw [if_neg (by simp)]
      obtain ⟨c1, c2, c3⟩ := bulkApprove_nonPending t a i0 dtr hst (i :: l)
        ⟨db, [], []⟩ hd (by intro d hmem; simp at hmem)
      refine ⟨_, hroute2, c3 hm, c2, ?_⟩
      rw [hroute1, getDTR_of_dtrs_eq (logActivity_dtrs _ _ _)]
      exact c1

theorem c5_amended_witness :
    getDTR (approveDtrRoute dbC5 1 ⟨2024, 5, 11⟩ none).1 1
        = some { dtrC5 with status := "Approved", approvalDate := some ⟨2024, 5, 11⟩ }
    ∧ ∃ resp, (bulkApproveRoute dbC5 [1] ⟨2024, 5, 11⟩ none).2 = some resp ∧
        (∃ err ∈ resp.errors, err.id = 1) ∧
        (∀ d ∈ resp.results, d.id ≠ 1) ∧
        getDTR (bulkApproveRoute dbC5 [1] ⟨2024, 5, 11⟩ none).1 1 = some dtrC5 :=
  c5_amended_approve_guard dbC5 1 dtrC5 ⟨2024, 5, 11⟩ none [1] rfl (by decide)
    (by decide)

/-- Field values of the payroll object the generate handler builds for a
Regular employee, before it is handed to storage.createPayroll. -/
theorem generatePayrollData_regular (dtrs : List DTRRec) (emp : Employee)
    (s e : SDate) (hreg : emp.employeeType = "Regular") :
    (generatePayrollData dtrs emp s e).employeeId = emp.id
    ∧ (generatePayrollData dtrs emp s e).periodStart = some s
    ∧ (generatePayrollData dtrs emp s e).periodEnd = some e
    ∧ (generatePayrollData dtrs emp s e).basicPay
        = some (emp.salary * (daysInPeriodQ s e / (daysInMonth s.y s.m : Rat)))
    ∧ (generatePayrollData dtrs emp s e).overtimePay
        = some ((((dtrs.filter (approvedInPeriod emp s e)).map
              (fun d => d.overtimeHours.getD 0)).sum)
            * (emp.salary / (daysInMonth s.y s.m : Rat) / 8) * (125 / 100))
    ∧ (generatePayrollData dtrs emp s e).grossPay
        = some (emp.salary * (daysInPeriodQ s e / (daysInMonth s.y s.m : Rat))
            + (((dtrs.filter (approvedInPeriod emp s e)).map
                (fun d => d.overtimeHours.getD 0)).sum)
              * (emp.salary / (daysInMonth s.y s.m : Rat) / 8) * (125 / 100))
    ∧ (generatePayrollData dtrs emp s e).totalDeductions
        = some ((emp.salary * (daysInPeriodQ s e / (daysInMonth s.y s.m : Rat))
            + (((dtrs.filter (approvedInPeriod emp s e)).map
                (fun d => d.overtimeHours.getD 0)).sum)
              * (emp.salary / (daysInMonth s.y s.m : Rat) / 8) * (125 / 100))
            * (1 / 10) + 0 + 0)
    ∧ (generatePayrollData dtrs emp s e).netPay
        = (emp.salary * (daysInPeriodQ s e / (daysInMonth s.y s.m : Rat))
            + (((dtrs.filter (approvedInPeriod emp s e)).map
                (fun d => d.overtimeHours.getD 0)).sum)
              * (emp.salary / (daysInMonth s.y s.m : Rat) / 8) * (125 / 100))
          - ((emp.salary * (daysInPeriodQ s e / (daysInMonth s.y s.m : Rat))
            + (((dtrs.filter (approvedInPeriod emp s e)).map
                (fun d => d.overtimeHours.getD 0)).sum)
              * (emp.salary / (daysInMonth s.y s.m : Rat) / 8) * (125 / 100))
            * (1 / 10) + 0 + 0)
    ∧ (generatePayrollData dtrs emp s e).deductions
        = [⟨"Tax", (emp.salary * (daysInPeriodQ s e / (daysInMonth s.y s.m : Rat))
            + (((dtrs.filter (approvedInPeriod emp s e)).map
                (fun d => d.overtimeHours.getD 0)).sum)
              * (emp.salary / (daysInMonth s.y s.m : Rat) / 8) * (125 / 100))
            * (1 / 10), "Withholding tax"⟩] := by
  unfold generatePayrollData
  dsimp only
  rw [if_pos (by simp [hreg] : (emp.employeeType == "Regular") = true)]
  exact ⟨rfl, rfl, rfl, rfl, rfl, rfl, rfl, rfl, rfl⟩

/-- Claim C1: for an Active Regular employee with at least one Approved DTR in
the period and no payroll matching the duplicate test, generation
computes regularPay = salary pro-rated by inclusive period days over days
of the periodStart month, overtimePay = totalOvertimeHours * (salary /
daysInMonth / 8) * 1.25, grossPay their sum, totalDeductions = 0.1 *
grossPay and netPay their difference (first two conjuncts, on the object
the handler builds), and creates a payroll record that persists exactly
the payrollSchema fields of that object: basicPay (the regular pay),
overtimePay, the Tax deduction of 0.1 * grossPay, and netPay.  The
grossPay and totalDeductions values themselves are dropped by the schema
in storage (strict mode), surviving through the Tax amount and the net
amount. -/
theorem c1_generate_regular_formula (db : DB) (s e : SDate) (a : Option Nat)
    (emp : Employee) (hmem : emp ∈ db.employees) (hact : emp.status = "Active")
    (hreg : emp.employeeType = "Regular")
    (hdtr : (db.dtrs.filter (approvedInPeriod emp s e)).isEmpty = false)
    (hnodup : db.payrolls.any (payrollMatches emp s e) = false) :
    (generatePayrollData db.dtrs emp s e).grossPay
        = some (emp.salary * (daysInPeriodQ s e / (daysInMonth s.y s.m : Rat))
            + (((db.dtrs.filter (approvedInPeriod emp s e)).map
                (fun d => d.overtimeHours.getD 0)).sum)
              * (emp.salary / (daysInMonth s.y s.m : Rat) / 8) * (125 / 100))
    ∧ (generatePayrollData db.dtrs emp s e).totalDeductions
        = some ((1 / 10) * (emp.salary
            * (daysInPeriodQ s e / (daysInMonth s.y s.m : Rat))
            + (((db.dtrs.filter (approvedInPeriod emp s e)).map
                (fun d => d.overtimeHours.getD 0)).sum)
              * (emp.salary / (daysInMonth s.y s.m : Rat) / 8) * (125 / 100)))
    ∧ ∃ p ∈ (generatePayrollsRoute db s e a).db.payrolls,
      p.employeeId = emp.id ∧ p.periodStart = some s ∧ p.periodEnd = some e ∧
      p.basicPay = some (emp.salary
          * (daysInPeriodQ s e / (daysInMonth s.y s.m : Rat))) ∧
      p.overtimePay = some ((((db.dtrs.filter (approvedInPeriod emp s e)).map
            (fun d => d.overtimeHours.getD 0)).sum)
          * (emp.salary / (daysInMonth s.y s.m : Rat) / 8) * (125 / 100)) ∧
      p.deductions = [⟨"Tax", (1 / 10) * (emp.salary
          * (daysInPeriodQ s e / (daysInMonth s.y s.m : Rat))
          + (((db.dtrs.filter (approvedInPeriod emp s e)).map
              (fun d => d.overtimeHours.getD 0)).sum)
            * (emp.salary / (daysInMonth s.y s.m : Rat) / 8) * (125 / 100)),
          "Withholding tax"⟩] ∧
      p.netPay = (emp.salary * (daysInPeriodQ s e / (daysInMonth s.y s.m : Rat))
          + (((db.dtrs.filter (approvedInPeriod emp s e)).map
              (fun d => d.overtimeHours.getD 0)).sum)
            * (emp.salary / (daysInMonth s.y s.m : Rat) / 8) * (125 / 100))
        - (1 / 10) * (emp.salary
          * (daysInPeriodQ s e / (daysInMonth s.y s.m : Rat))
          + (((db.dtrs.filter (approvedInPeriod emp s e)).map
              (fun d => d.overtimeHours.getD 0)).sum)
            * (emp.salary / (daysInMonth s.y s.m : Rat) / 8) * (125 / 100)) := by
  obtain ⟨h1, h2, h3, h4, h5, h6, h7, h8, h9⟩ :=
    generatePayrollData_regular db.dtrs emp s e hreg
  refine ⟨h6, h7.trans (congrArg some (by ring)), ?_⟩
  unfold generatePayrollsRoute
  have hmem2 : emp ∈ db.employees.filter (fun x => x.status == "Active") :=
    List.mem_filter.mpr ⟨hmem, by simp [hact]⟩
  obtain ⟨n, hp⟩ := generate_fold_mem s e a emp db.dtrs hdtr
    (db.employees.filter (fun x => x.status == "Active")) ⟨db, []⟩ rfl hnodup hmem2
  refine ⟨_, hp, ?_, ?_, ?_, ?_, ?_, ?_, ?_⟩
  · exact h1
  · exact h2
  · exact h3
  · exact h4
  · rw [show (mongoStoredPayroll n (generatePayrollData db.dtrs emp s e)).overtimePay
        = some ((generatePayrollData db.dtrs emp s e).overtimePay.getD 0) from rfl, h5]
    rfl
  · exact h9.trans (congrArg
      (fun x => [({ dtype := "Tax", amount := x, description := "Withholding tax" } : Deduction)])
      (by ring))
  · exact h8.trans (by ring)

def empC1 : Employee := ⟨1, "Regular", "Active", 20000⟩

def dtrC1 : DTRRec :=
  { id := 1, employeeId := 1, date := ⟨2024, 4, 10⟩, timeIn := ⟨8, 0⟩,
    timeOut := ⟨17, 0⟩, breakHours := some 1, regularHours := 8,
    overtimeHours := none, remarks := none, dtype := "Daily",
    status := "Approved", submissionDate := none, approvedBy := none,
    approvalDate := none }

def dbC1 : DB := ⟨[empC1], [dtrC1], [], [], 2, 1⟩

/-- The spec example: salary 20000, a 15-day period of a 30-day month, no
overtime, gives regular pay 10000, a 1000 tax deduction, net 9000; the
second conjunct reads those amounts off the stored record (basicPay, the
Tax deduction amounts, netPay). -/
theorem c1_witness :
    ((generatePayrollData dbC1.dtrs empC1 ⟨2024, 4, 1⟩ ⟨2024, 4, 15⟩).grossPay
        = some (empC1.salary * (daysInPeriodQ ⟨2024, 4, 1⟩ ⟨2024, 4, 15⟩
            / (daysInMonth (2024 : Nat) (4 : Nat) : Rat))
            + (((dbC1.dtrs.filter
                (approvedInPeriod empC1 ⟨2024, 4, 1⟩ ⟨2024, 4, 15⟩)).map
                (fun d => d.overtimeHours.getD 0)).sum)
              * (empC1.salary / (daysInMonth (2024 : Nat) (4 : Nat) : Rat) / 8)
              * (125 / 100))
      ∧ (generatePayrollData dbC1.dtrs empC1 ⟨2024, 4, 1⟩ ⟨2024, 4, 15⟩).totalDeductions
          = some ((1 / 10) * (empC1.salary
              * (daysInPeriodQ ⟨2024, 4, 1⟩ ⟨2024, 4, 15⟩
                / (daysInMonth (2024 : Nat) (4 : Nat) : Rat))
              + (((dbC1.dtrs.filter
                  (approvedInPeriod empC1 ⟨2024, 4, 1⟩ ⟨2024, 4, 15⟩)).map
                  (fun d => d.overtimeHours.getD 0)).sum)
                * (empC1.salary / (daysInMonth (2024 : Nat) (4 : Nat) : Rat) / 8)
                * (125 / 100)))
      ∧ ∃ p ∈ (generatePayrollsRoute dbC1 ⟨2024, 4, 1⟩ ⟨2024, 4, 15⟩ none).db.payrolls,
        p.employeeId = empC1.id ∧ p.periodStart = some ⟨2024, 4, 1⟩ ∧
        p.periodEnd = some ⟨2024, 4, 15⟩ ∧
        p.basicPay = some (empC1.salary
            * (daysInPeriodQ ⟨2024, 4, 1⟩ ⟨2024, 4, 15⟩
              / (daysInMonth (2024 : Nat) (4 : Nat) : Rat))) ∧
        p.overtimePay = some ((((dbC1.dtrs.filter
              (approvedInPeriod empC1 ⟨2024, 4, 1⟩ ⟨2024, 4, 15⟩)).map
              (fun d => d.overtimeHours.getD 0)).sum)
            * (empC1.salary / (daysInMonth (2024 : Nat) (4 : Nat) : Rat) / 8)
            * (125 / 100)) ∧
        p.deductions = [⟨"Tax", (1 / 10) * (empC1.salary
            * (daysInPeriodQ ⟨2024, 4, 1⟩ ⟨2024, 4, 15⟩
              / (daysInMonth (2024 : Nat) (4 : Nat) : Rat))
            + (((dbC1.dtrs.filter
                (approvedInPeriod empC1 ⟨2024, 4, 1⟩ ⟨2024, 4, 15⟩)).map
                (fun d => d.overtimeHours.getD 0)).sum)
              * (empC1.salary / (daysInMonth (2024 : Nat) (4 : Nat) : Rat) / 8)
              * (125 / 100)), "Withholding tax"⟩] ∧
        p.netPay = (empC1.salary * (daysInPeriodQ ⟨2024, 4, 1⟩ ⟨2024, 4, 15⟩
              / (daysInMonth (2024 : Nat) (4 : Nat) : Rat))
            + (((dbC1.dtrs.filter
                (approvedInPeriod empC1 ⟨2024, 4, 1⟩ ⟨2024, 4, 15⟩)).map
                (fun d => d.overtimeHours.getD 0)).sum)
              * (empC1.salary / (daysInMonth (2024 : Nat) (4 : Nat) : Rat) / 8)
              * (125 / 100))
          - (1 / 10) * (empC1.salary
            * (daysInPeriodQ ⟨2024, 4, 1⟩ ⟨2024, 4, 15⟩
              / (daysInMonth (2024 : Nat) (4 : Nat) : Rat))
            + (((dbC1.dtrs.filter
                (approvedInPeriod empC1 ⟨2024, 4, 1⟩ ⟨2024, 4, 15⟩)).map
                (fun d => d.overtimeHours.getD 0)).sum)
              * (empC1.salary / (daysInMonth (2024 : Nat) (4 : Nat) : Rat) / 8)
              * (125 / 100)))
    ∧ ((generatePayrollsRoute dbC1 ⟨2024, 4, 1⟩ ⟨2024, 4, 15⟩ none).db.payrolls.map
        (fun p => (p.basicPay, p.deductions.map (fun d => d.amount), p.netPay)))
      = [(some 10000, [1000], 9000)] := by
  refine ⟨c1_generate_regular_formula dbC1 ⟨2024, 4, 1⟩ ⟨2024, 4, 15⟩ none empC1
    (List.mem_cons_self empC1 []) rfl rfl rfl rfl, ?_⟩
  simp [generatePayrollsRoute, generateStep, generatePayrollData, approvedInPeriod,
    payrollMatches, createPayroll, payrollSchemaValid, mongoStoredPayroll,
    logActivity, dateLE, epochDay, daysInPeriodQ, daysInMonth, isLeapYear,
    dbC1, empC1, dtrC1]
  norm_num [Int.fdiv]

def empC4 : Employee := ⟨1, "Regular", "Active", 20000⟩

def dtrC4 : DTRRec :=
  { id := 1, employeeId := 1, date := ⟨2024, 4, 10⟩, timeIn := ⟨8, 0⟩,
    timeOut := ⟨17, 0⟩, breakHours := some 1, regularHours := 8,
    overtimeHours := none, remarks := none, dtype := "Daily",
    status := "Approved", submissionDate := none, approvedBy := none,
    approvalDate := none }

def dbC4 : DB := ⟨[empC4], [dtrC4], [], [], 2, 1⟩

/-- Claim C4 fails on the code: running generate twice with the same period
leaves two payrolls with identical employeeId, periodStart and periodEnd
in the store.  The duplicate test at src/server/routes.ts lines 878-882
reads p.payPeriodStart and p.payPeriodEnd, but the generate path stores
the period under periodStart and periodEnd (line 917), so the test never
matches a payroll the generate path itself created. -/
theorem c4_duplicate_payroll_created :
    ((generatePayrollsRoute
        (generatePayrollsRoute dbC4 ⟨2024, 4, 1⟩ ⟨2024, 4, 15⟩ none).db
        ⟨2024, 4, 1⟩ ⟨2024, 4, 15⟩ none).db.payrolls.map
      (fun p => (p.employeeId, p.periodStart, p.periodEnd)))
    = [(1, some ⟨2024, 4, 1⟩, some ⟨2024, 4, 15⟩),
       (1, some ⟨2024, 4, 1⟩, some ⟨2024, 4, 15⟩)] := by
  rfl

end WorkTrack
